import Mathlib

/-!
# Tilck kernel mutex (`kernel/kmutex.c`)

A shallow embedding of the kernel mutex of Tilck and a verification of its
specification.  Task pointers are natural numbers, `0` being `NULL`.  One mutex
is modelled at a time; its address is the parameter `maddr` where the code
passes the pointer `m` on (to `task_set_wait_obj`).
-/

namespace Tilck

/-! ## Data model -/

/-- Build configuration.  `debug` says whether `ASSERT` and `DEBUG_ONLY` are
compiled in; `KMUTEX_FL_RECURSIVE` is the flag mask, whose value is declared in
a header (`tilck/kernel/sync.h`) and is therefore a parameter. -/
structure Build where
  debug : Bool
  KMUTEX_FL_RECURSIVE : Nat
deriving DecidableEq, Repr

/-- Scheduling states of a task (`TASK_STATE_*`). -/
inductive task_state where
  | TASK_STATE_RUNNABLE
  | TASK_STATE_RUNNING
  | TASK_STATE_SLEEPING
deriving DecidableEq, Repr

/-- Wait reasons (`WOBJ_*`); `WOBJ_NONE` is the cleared reason. -/
inductive wo_type where
  | WOBJ_NONE
  | WOBJ_KMUTEX
deriving DecidableEq, Repr

/-- Modelled from the spec: the per-task wait-object record of the wait-object
layer (its declaration is not part of `kmutex.c`): the wait reason tag and the
pointer to the awaited object.  Membership in a wait list is the presence of the
task in that list. -/
structure wait_obj where
  type : wo_type
  ptr : Nat
deriving DecidableEq, Repr

/-- The part of `task_info` the mutex code touches: the scheduling state and the
embedded wait-object `wobj`. -/
structure task_info where
  state : task_state
  wobj : wait_obj
deriving DecidableEq, Repr

/-- Modelled from the spec: the `kmutex` record (declared in
`tilck/kernel/sync.h`): `flags`, `lock_count` (a non-negative integer),
`owner_task` (a task pointer, `0` for `NULL`) and `wait_list`.  The intrusive
list of wait-objects is the list of the tasks that contain them, head first;
`CONTAINER_OF(task_wo, task_info, wobj)` is the identity on this
representation. -/
structure kmutex where
  flags : Nat
  lock_count : Nat
  owner_task : Nat
  wait_list : List Nat
deriving DecidableEq, Repr

/-- Kernel state seen by the mutex code: the mutex record, the task table, the
current task (`get_curr_task()`), the preemption-gate counter
(`disable_preemption_count`) and whether an interrupt handler is executing. -/
structure Kernel where
  m : kmutex
  tasks : Nat → task_info
  curr : Nat
  disable_preemption_count : Nat
  in_irq : Bool

/-- How a call ends: it returns a value, it is suspended inside
`kernel_yield()`, or an `ASSERT` / `check_not_in_irq_handler()` halts the
kernel.  Each case carries the kernel state at that moment. -/
inductive Outcome (α : Type) where
  | ret (v : α) (k : Kernel)
  | yielded (k : Kernel)
  | abort (k : Kernel)

/-- Kernel state carried by an outcome. -/
def Outcome.kernel {α : Type} : Outcome α → Kernel
  | .ret _ k => k
  | .yielded k => k
  | .abort k => k

/-- True when the call returned. -/
def Outcome.isRet {α : Type} : Outcome α → Bool
  | .ret _ _ => true
  | _ => false

/-- True when the call is suspended in `kernel_yield()`. -/
def Outcome.isYielded {α : Type} : Outcome α → Bool
  | .yielded _ => true
  | _ => false

/-- True when the call tripped an assertion. -/
def Outcome.isAbort {α : Type} : Outcome α → Bool
  | .abort _ => true
  | _ => false

/-- Returned value, when the call returned. -/
def Outcome.value {α : Type} : Outcome α → Option α
  | .ret v _ => some v
  | _ => none

/-- Update of a task-indexed table at one task. -/
def upd {β : Type} (f : Nat → β) (a : Nat) (v : β) : Nat → β :=
  fun x => if x = a then v else f x

/-! ## Collaborators consumed by the mutex -/

/-- Modelled from the spec: `disable_preemption()` of the preemption gate
(defined outside `kmutex.c`): it increments the gate counter. -/
def disable_preemption (k : Kernel) : Kernel :=
  { k with disable_preemption_count := k.disable_preemption_count + 1 }

/-- Modelled from the spec: `enable_preemption()` of the preemption gate
(defined outside `kmutex.c`): it decrements the gate counter. -/
def enable_preemption (k : Kernel) : Kernel :=
  { k with disable_preemption_count := k.disable_preemption_count - 1 }

/-- Modelled from the spec: `check_not_in_irq_handler()` (defined outside
`kmutex.c`), the debug predicate that holds when no interrupt handler is
executing; the result `true` means the check fails. -/
def in_irq_handler (k : Kernel) : Bool := k.in_irq

/-- Modelled from the spec: `task_set_wait_obj(ti, type, ptr, wait_list)` of the
wait-object layer (`set_wait`, defined outside `kmutex.c`): records
`(type, ptr)` on the wait-object of `ti`, appends it to the wait list of the
mutex and makes `ti` SLEEPING. -/
def task_set_wait_obj (k : Kernel) (ti : Nat) (type : wo_type) (ptr : Nat) : Kernel :=
  { k with
    tasks := upd k.tasks ti
      { state := task_state.TASK_STATE_SLEEPING, wobj := { type := type, ptr := ptr } }
    m := { k.m with wait_list := k.m.wait_list ++ [ti] } }

/-- Modelled from the spec: `task_reset_wait_obj(ti)` of the wait-object layer
(`reset_wait`, defined outside `kmutex.c`): unlinks the wait-object of `ti` from
the wait list, clears `(type, ptr)` and makes `ti` RUNNABLE. -/
def task_reset_wait_obj (k : Kernel) (ti : Nat) : Kernel :=
  { k with
    tasks := upd k.tasks ti
      { state := task_state.TASK_STATE_RUNNABLE,
        wobj := { type := wo_type.WOBJ_NONE, ptr := 0 } }
    m := { k.m with wait_list := k.m.wait_list.erase ti } }

/-- The test `flags & KMUTEX_FL_RECURSIVE`, applied to `m->flags`. -/
def is_recursive (cfg : Build) (flags : Nat) : Bool :=
  (flags &&& cfg.KMUTEX_FL_RECURSIVE) != 0

/-! ## The operations of `kmutex.c` -/

/-- `kmutex_is_curr_task_holding_lock`: `m->owner_task == get_curr_task()`. -/
def kmutex_is_curr_task_holding_lock (k : Kernel) : Bool :=
  k.m.owner_task == k.curr

/-- `kmutex_init`: the interrupt check in a debug build, `bzero`, the store of
`flags`, `list_init`. -/
def kmutex_init (cfg : Build) (flags : Nat) (k : Kernel) : Outcome Unit :=
  if cfg.debug && in_irq_handler k then .abort k
  else
    let k := { k with m := { flags := 0, lock_count := 0, owner_task := 0, wait_list := [] } }
    let k := { k with m := { k.m with flags := flags } }
    let k := { k with m := { k.m with wait_list := [] } }
    .ret () k

/-- `kmutex_destroy`: `bzero` of the record, nothing else. -/
def kmutex_destroy (k : Kernel) : Outcome Unit :=
  .ret () { k with m := { flags := 0, lock_count := 0, owner_task := 0, wait_list := [] } }

/-- `kmutex_lock` up to and including the call of `kernel_yield()`.  The
outcome `yielded` is the state in which the caller is suspended; the code after
the yield is `kmutex_lock_woken`. -/
def kmutex_lock (cfg : Build) (maddr : Nat) (k0 : Kernel) : Outcome Unit :=
  let k := disable_preemption k0
  if cfg.debug && in_irq_handler k then .abort k
  else if k.m.owner_task = 0 then
    -- Nobody owns this mutex, just make this task own it
    let k := { k with m := { k.m with owner_task := k.curr } }
    if is_recursive cfg k.m.flags then
      if cfg.debug && !(k.m.lock_count == 0) then .abort k
      else
        let k := { k with m := { k.m with lock_count := k.m.lock_count + 1 } }
        .ret () (enable_preemption k)
    else .ret () (enable_preemption k)
  else if is_recursive cfg k.m.flags then
    if cfg.debug && !(decide (k.m.lock_count > 0)) then .abort k
    else if kmutex_is_curr_task_holding_lock k then
      let k := { k with m := { k.m with lock_count := k.m.lock_count + 1 } }
      .ret () (enable_preemption k)
    else
      let k := task_set_wait_obj k k.curr wo_type.WOBJ_KMUTEX maddr
      .yielded (enable_preemption k)
  else
    if cfg.debug && kmutex_is_curr_task_holding_lock k then .abort k
    else
      let k := task_set_wait_obj k k.curr wo_type.WOBJ_KMUTEX maddr
      .yielded (enable_preemption k)

/-- `kmutex_lock` after `kernel_yield()` has returned ("We've been woken up"):
the two assertions, then the return. -/
def kmutex_lock_woken (cfg : Build) (k : Kernel) : Outcome Unit :=
  if cfg.debug && !(kmutex_is_curr_task_holding_lock k) then .abort k
  else if is_recursive cfg k.m.flags then
    if cfg.debug && !(k.m.lock_count == 1) then .abort k
    else .ret () k
  else .ret () k

/-- `kmutex_trylock`. -/
def kmutex_trylock (cfg : Build) (k0 : Kernel) : Outcome Bool :=
  let k := disable_preemption k0
  if cfg.debug && in_irq_handler k then .abort k
  else if k.m.owner_task = 0 then
    -- Nobody owns this mutex, just make this task own it
    let k := { k with m := { k.m with owner_task := k.curr } }
    if is_recursive cfg k.m.flags then
      let k := { k with m := { k.m with lock_count := k.m.lock_count + 1 } }
      .ret true (enable_preemption k)
    else .ret true (enable_preemption k)
  else
    -- There is an owner task
    if is_recursive cfg k.m.flags then
      if kmutex_is_curr_task_holding_lock k then
        let k := { k with m := { k.m with lock_count := k.m.lock_count + 1 } }
        .ret true (enable_preemption k)
      else .ret false (enable_preemption k)
    else .ret false (enable_preemption k)

/-- The tail of `kmutex_unlock` from `m->owner_task = NULL` on: the release and
the handoff to the head of the wait list. -/
def kmutex_unlock_release (cfg : Build) (k : Kernel) : Outcome Unit :=
  let k := { k with m := { k.m with owner_task := 0 } }
  match k.m.wait_list with
  | [] => .ret () (enable_preemption k)
  | ti :: _ =>
    let k := { k with m := { k.m with owner_task := ti } }
    let k :=
      if is_recursive cfg k.m.flags then
        { k with m := { k.m with lock_count := k.m.lock_count + 1 } }
      else k
    if cfg.debug && !((k.tasks ti).state == task_state.TASK_STATE_SLEEPING) then .abort k
    else .ret () (enable_preemption (task_reset_wait_obj k ti))

/-- `kmutex_unlock`. -/
def kmutex_unlock (cfg : Build) (k0 : Kernel) : Outcome Unit :=
  let k := disable_preemption k0
  if cfg.debug && in_irq_handler k then .abort k
  else if cfg.debug && !(kmutex_is_curr_task_holding_lock k) then .abort k
  else if is_recursive cfg k.m.flags then
    if cfg.debug && !(decide (k.m.lock_count > 0)) then .abort k
    else
      let k := { k with m := { k.m with lock_count := k.m.lock_count - 1 } }
      if k.m.lock_count > 0 then .ret () (enable_preemption k)
      else kmutex_unlock_release cfg k
  else kmutex_unlock_release cfg k

/-! ## The step relation: tasks calling the operations on one mutex -/

/-- A system state: the kernel state and, for every task, two ghost
components.  `held c` counts the acquisitions of `c` (returns from
`kmutex_lock` or from a successful `kmutex_trylock`) not yet matched by a
`kmutex_unlock`; `blocked c` says that `c` is suspended in the `kernel_yield()`
of `kmutex_lock`. -/
structure Sys where
  k : Kernel
  held : Nat → Nat
  blocked : Nat → Bool

/-- The steps a task can take. -/
inductive Action where
  | lock (c : Nat)
  | trylock (c : Nat)
  | unlock (c : Nat)
  | resume (c : Nat)
deriving DecidableEq, Repr

/-- A task that can make a call: a non-null task that is neither suspended in
`kmutex_lock` nor SLEEPING. -/
def can_call (s : Sys) (c : Nat) : Bool :=
  decide (c ≠ 0) && !(s.blocked c) &&
    !((s.k.tasks c).state == task_state.TASK_STATE_SLEEPING)

/-- One step of the system.  The scheduler makes `c` the current task and `c`
runs one operation, atomically up to its return or its `kernel_yield()`.  The
result is `none` when the step is not possible: the task cannot run, the call
breaks the contract (an unlock without a matching acquisition, a second lock of
a non-recursive mutex by its holder), or an assertion halts the kernel.  A
suspended task resumes only once it is no longer SLEEPING. -/
def sys_step (cfg : Build) (maddr : Nat) (s : Sys) : Action → Option Sys
  | .lock c =>
    if can_call s c && (is_recursive cfg s.k.m.flags || s.held c == 0) then
      match kmutex_lock cfg maddr { s.k with curr := c } with
      | .ret _ k' => some { k := k', held := upd s.held c (s.held c + 1),
                            blocked := s.blocked }
      | .yielded k' => some { k := k', held := s.held,
                              blocked := upd s.blocked c true }
      | .abort _ => none
    else none
  | .trylock c =>
    if can_call s c then
      match kmutex_trylock cfg { s.k with curr := c } with
      | .ret true k' => some { k := k', held := upd s.held c (s.held c + 1),
                               blocked := s.blocked }
      | .ret false k' => some { k := k', held := s.held, blocked := s.blocked }
      | _ => none
    else none
  | .unlock c =>
    if can_call s c && decide (0 < s.held c) then
      match kmutex_unlock cfg { s.k with curr := c } with
      | .ret _ k' => some { k := k', held := upd s.held c (s.held c - 1),
                            blocked := s.blocked }
      | _ => none
    else none
  | .resume c =>
    if decide (c ≠ 0) && s.blocked c &&
        !((s.k.tasks c).state == task_state.TASK_STATE_SLEEPING) then
      match kmutex_lock_woken cfg { s.k with curr := c } with
      | .ret _ k' => some { k := k', held := upd s.held c (s.held c + 1),
                            blocked := upd s.blocked c false }
      | _ => none
    else none

/-- A schedule: the steps of a list of actions, in order. -/
def sys_run (cfg : Build) (maddr : Nat) : Sys → List Action → Option Sys
  | s, [] => some s
  | s, a :: as =>
    match sys_step cfg maddr s a with
    | some s' => sys_run cfg maddr s' as
    | none => none

/-- The system right after `kmutex_init(m, flags)` returned in the kernel state
`k0`: no task holds the mutex, none is suspended in `kmutex_lock`. -/
def sys_init (cfg : Build) (flags : Nat) (k0 : Kernel) : Option Sys :=
  match kmutex_init cfg flags k0 with
  | .ret _ k => some { k := k, held := fun _ => 0, blocked := fun _ => false }
  | _ => none

/-- States reachable from `kmutex_init` by a schedule. -/
def Reachable (cfg : Build) (maddr : Nat) (s : Sys) : Prop :=
  ∃ (flags : Nat) (k0 : Kernel) (s0 : Sys) (acts : List Action),
    sys_init cfg flags k0 = some s0 ∧ sys_run cfg maddr s0 acts = some s

/-- The invariant of the reachable states.  It relates the mutex record, the
task table and the ghost components. -/
structure Inv (cfg : Build) (maddr : Nat) (s : Sys) : Prop where
  held_owner : ∀ c, 0 < s.held c → s.k.m.owner_task = c ∧ c ≠ 0
  blocked_held : ∀ c, s.blocked c = true → s.held c = 0 ∧ c ≠ 0
  wl_iff : ∀ c, c ∈ s.k.m.wait_list ↔
    (s.blocked c = true ∧ (s.k.tasks c).state = task_state.TASK_STATE_SLEEPING)
  wl_nodup : s.k.m.wait_list.Nodup
  wl_wobj : ∀ c, c ∈ s.k.m.wait_list →
    (s.k.tasks c).wobj = { type := wo_type.WOBJ_KMUTEX, ptr := maddr }
  woken : ∀ c, s.blocked c = true →
    (s.k.tasks c).state ≠ task_state.TASK_STATE_SLEEPING →
    s.k.m.owner_task = c ∧ (is_recursive cfg s.k.m.flags = true → s.k.m.lock_count = 1)
  free : s.k.m.owner_task = 0 → s.k.m.wait_list = [] ∧ s.k.m.lock_count = 0
  nonrec_count : is_recursive cfg s.k.m.flags = false → s.k.m.lock_count = 0
  owner_running : s.k.m.owner_task ≠ 0 → s.blocked s.k.m.owner_task = false →
    0 < s.held s.k.m.owner_task ∧
      (is_recursive cfg s.k.m.flags = true → s.k.m.lock_count = s.held s.k.m.owner_task)
  nonrec_held : is_recursive cfg s.k.m.flags = false → ∀ c, s.held c ≤ 1
  owner_not_waiting : s.k.m.owner_task ∉ s.k.m.wait_list

/-! ## Sequential scenarios -/

/-- The tasks of `ts` call `kmutex_lock` one after the other, each as the
current task; every call has to end suspended in `kernel_yield()`, otherwise
the result is `none`. -/
def block_all (cfg : Build) (maddr : Nat) : Kernel → List Nat → Option Kernel
  | k, [] => some k
  | k, t :: ts =>
    match kmutex_lock cfg maddr { k with curr := t } with
    | .yielded k' => block_all cfg maddr k' ts
    | _ => none

/-- A chain of `n` calls of `kmutex_unlock`, each made by the owner of the
mutex at that moment.  The result lists `owner_task` after each call, in order,
and gives the final state; it is `none` when a call does not return. -/
def unlock_chain (cfg : Build) : Nat → Kernel → Option (List Nat × Kernel)
  | 0, k => some ([], k)
  | n + 1, k =>
    match kmutex_unlock cfg { k with curr := k.m.owner_task } with
    | .ret _ k' =>
      match unlock_chain cfg n k' with
      | some (os, k'') => some (k'.m.owner_task :: os, k'')
      | none => none
    | _ => none

/-- A call of a single task in a lock/unlock sequence. -/
inductive Call where
  | lock
  | unlock
deriving DecidableEq, Repr

/-- The task `c` makes the calls of `cs` in order; the result is `none` as soon
as a call blocks (yields) or trips an assertion. -/
def run_calls (cfg : Build) (maddr : Nat) (c : Nat) : Kernel → List Call → Option Kernel
  | k, [] => some k
  | k, Call.lock :: cs =>
    match kmutex_lock cfg maddr { k with curr := c } with
    | .ret _ k' => run_calls cfg maddr c k' cs
    | _ => none
  | k, Call.unlock :: cs =>
    match kmutex_unlock cfg { k with curr := c } with
    | .ret _ k' => run_calls cfg maddr c k' cs
    | _ => none

/-- Number of `lock` calls in a sequence. -/
def locks (cs : List Call) : Nat := cs.count Call.lock

/-- Number of `unlock` calls in a sequence. -/
def unlocks (cs : List Call) : Nat := cs.count Call.unlock

/-- A balanced sequence: as many locks as unlocks, and every prefix has at least
as many locks as unlocks. -/
def balanced (cs : List Call) : Prop :=
  locks cs = unlocks cs ∧ ∀ n, n ≤ cs.length → unlocks (cs.take n) ≤ locks (cs.take n)

/-- The gate depth after an outcome that is not an abort equals `d`; for a
suspended call this is the depth at the moment `kernel_yield()` is called. -/
def gate_depth_is {α : Type} (d : Nat) : Outcome α → Prop
  | .ret _ k => k.disable_preemption_count = d
  | .yielded k => k.disable_preemption_count = d
  | .abort _ => True

/-- `kmutex_is_curr_task_holding_lock` as an operation of its own: it returns
the comparison and leaves the kernel state alone. -/
def kmutex_is_curr_task_holding_lock_call (k : Kernel) : Outcome Bool :=
  .ret (kmutex_is_curr_task_holding_lock k) k

/-! ## Concrete states used to exercise the theorems -/

/-- A debug build with `KMUTEX_FL_RECURSIVE = 1`. -/
def cfg_debug : Build := { debug := true, KMUTEX_FL_RECURSIVE := 1 }

/-- A release build with `KMUTEX_FL_RECURSIVE = 1`. -/
def cfg_release : Build := { debug := false, KMUTEX_FL_RECURSIVE := 1 }

/-- A runnable task that waits for nothing. -/
def task_runnable : task_info :=
  { state := task_state.TASK_STATE_RUNNABLE,
    wobj := { type := wo_type.WOBJ_NONE, ptr := 0 } }

/-- A task sleeping on the mutex at address `maddr`. -/
def task_waiting (maddr : Nat) : task_info :=
  { state := task_state.TASK_STATE_SLEEPING,
    wobj := { type := wo_type.WOBJ_KMUTEX, ptr := maddr } }

/-- A kernel with the given mutex record, every task runnable, outside any
interrupt handler, gate open. -/
def kernel_with (m : kmutex) (curr : Nat) : Kernel :=
  { m := m, tasks := fun _ => task_runnable, curr := curr,
    disable_preemption_count := 0, in_irq := false }

/-- The system right after `kmutex_init` with the given flags. -/
def sys_fresh (flags : Nat) : Sys :=
  { k := kernel_with { flags := flags, lock_count := 0, owner_task := 0, wait_list := [] } 0,
    held := fun _ => 0, blocked := fun _ => false }

/-- The kernel state in which `kmutex_init` is called in the examples: the
record holds leftovers of an earlier use. -/
def kernel_boot : Kernel :=
  kernel_with { flags := 6, lock_count := 3, owner_task := 9, wait_list := [4] } 0

/-- Non-recursive mutex at address 100 after `init`, then task 1 called `lock`:
task 1 holds it, nobody waits. -/
def sys_held : Sys :=
  { k := kernel_with { flags := 0, lock_count := 0, owner_task := 1, wait_list := [] } 1,
    held := upd (fun _ => 0) 1 1, blocked := fun _ => false }

/-- Non-recursive mutex at address 100 after `init`, then task 1 called `lock`,
then task 2 called `lock` and sleeps in the wait list. -/
def sys_contended : Sys :=
  { k :=
      { m := { flags := 0, lock_count := 0, owner_task := 1, wait_list := [2] },
        tasks := upd (fun _ => task_runnable) 2 (task_waiting 100),
        curr := 2, disable_preemption_count := 0, in_irq := false },
    held := upd (fun _ => 0) 1 1, blocked := upd (fun _ => false) 2 true }

/-- Recursive mutex at address 100 after `init`; task 1 locked, task 2 blocked in
`lock`, task 1 unlocked (handoff to 2), then task 3 called `lock` and task 4
called `trylock` before task 2 resumed. -/
def sys_handed_off : Sys :=
  { k :=
      { m := { flags := 1, lock_count := 1, owner_task := 2, wait_list := [3] },
        tasks := upd (upd (upd (fun _ => task_runnable) 2 (task_waiting 100)) 2 task_runnable)
          3 (task_waiting 100),
        curr := 4, disable_preemption_count := 0, in_irq := false },
    held := upd (upd (fun _ => 0) 1 1) 1 0,
    blocked := upd (upd (fun _ => false) 2 true) 3 true }

/-- Task 1 is running and holds the recursive mutex once; nobody waits. -/
def kernel_held_recursive : Kernel :=
  kernel_with { flags := 1, lock_count := 1, owner_task := 1, wait_list := [] } 1

/-! ## The operations with their field accesses and gate events -/

/-- The fields of the `kmutex` record. -/
inductive Field where
  | owner_task
  | flags
  | lock_count
  | wait_list
deriving DecidableEq, Repr

/-- What an operation does to the preemption gate and to the mutex record, in
program order: `disable_preemption()`, `enable_preemption()`, a read or a write
of a field, `kernel_yield()`. -/
inductive Ev where
  | disable
  | enable
  | read (f : Field)
  | write (f : Field)
  | yield
deriving DecidableEq, Repr

/-- The accesses of an `ASSERT`: present in a debug build only. -/
def dbg (cfg : Build) (es : List Ev) : List Ev :=
  if cfg.debug then es else []

/-- Every read and write of the trace happens at gate depth `> 0`, the trace
starting at depth `d`. -/
def gated : Nat → List Ev → Bool
  | _, [] => true
  | d, Ev.disable :: es => gated (d + 1) es
  | d, Ev.enable :: es => gated (d - 1) es
  | d, Ev.read _ :: es => decide (0 < d) && gated d es
  | d, Ev.write _ :: es => decide (0 < d) && gated d es
  | d, Ev.yield :: es => gated d es

/-- The operation calls `disable_preemption()` somewhere. -/
def enters_gate (es : List Ev) : Bool := es.contains Ev.disable

/-- `kmutex_is_curr_task_holding_lock` with its trace: one read of
`owner_task`. -/
def kmutex_is_curr_task_holding_lock_ev (k : Kernel) : Outcome Bool × List Ev :=
  (.ret (kmutex_is_curr_task_holding_lock k) k, [Ev.read Field.owner_task])

/-- `kmutex_init` with its trace: `bzero` writes every field, then `flags` and
the wait list are written again. -/
def kmutex_init_ev (cfg : Build) (flags : Nat) (k : Kernel) : Outcome Unit × List Ev :=
  if cfg.debug && in_irq_handler k then (.abort k, [])
  else
    let k := { k with m := { flags := 0, lock_count := 0, owner_task := 0, wait_list := [] } }
    let tr := [Ev.write Field.flags, Ev.write Field.lock_count, Ev.write Field.owner_task,
      Ev.write Field.wait_list]
    let k := { k with m := { k.m with flags := flags } }
    let tr := tr ++ [Ev.write Field.flags]
    let k := { k with m := { k.m with wait_list := [] } }
    let tr := tr ++ [Ev.write Field.wait_list]
    (.ret () k, tr)

/-- `kmutex_destroy` with its trace: `bzero` writes every field. -/
def kmutex_destroy_ev (k : Kernel) : Outcome Unit × List Ev :=
  (.ret () { k with m := { flags := 0, lock_count := 0, owner_task := 0, wait_list := [] } },
    [Ev.write Field.flags, Ev.write Field.lock_count, Ev.write Field.owner_task,
      Ev.write Field.wait_list])

/-- `kmutex_lock` up to `kernel_yield()` with its trace. -/
def kmutex_lock_ev (cfg : Build) (maddr : Nat) (k0 : Kernel) : Outcome Unit × List Ev :=
  let k := disable_preemption k0
  let tr := [Ev.disable]
  if cfg.debug && in_irq_handler k then (.abort k, tr)
  else
    let tr := tr ++ [Ev.read Field.owner_task]
    if k.m.owner_task = 0 then
      let k := { k with m := { k.m with owner_task := k.curr } }
      let tr := tr ++ [Ev.write Field.owner_task, Ev.read Field.flags]
      if is_recursive cfg k.m.flags then
        let tr := tr ++ dbg cfg [Ev.read Field.lock_count]
        if cfg.debug && !(k.m.lock_count == 0) then (.abort k, tr)
        else
          let k := { k with m := { k.m with lock_count := k.m.lock_count + 1 } }
          let tr := tr ++ [Ev.read Field.lock_count, Ev.write Field.lock_count]
          (.ret () (enable_preemption k), tr ++ [Ev.enable])
      else (.ret () (enable_preemption k), tr ++ [Ev.enable])
    else
      let tr := tr ++ [Ev.read Field.flags]
      if is_recursive cfg k.m.flags then
        let tr := tr ++ dbg cfg [Ev.read Field.lock_count]
        if cfg.debug && !(decide (k.m.lock_count > 0)) then (.abort k, tr)
        else
          let tr := tr ++ [Ev.read Field.owner_task]
          if kmutex_is_curr_task_holding_lock k then
            let k := { k with m := { k.m with lock_count := k.m.lock_count + 1 } }
            let tr := tr ++ [Ev.read Field.lock_count, Ev.write Field.lock_count]
            (.ret () (enable_preemption k), tr ++ [Ev.enable])
          else
            let k := task_set_wait_obj k k.curr wo_type.WOBJ_KMUTEX maddr
            let tr := tr ++ [Ev.write Field.wait_list]
            (.yielded (enable_preemption k), tr ++ [Ev.enable, Ev.yield])
      else
        let tr := tr ++ dbg cfg [Ev.read Field.owner_task]
        if cfg.debug && kmutex_is_curr_task_holding_lock k then (.abort k, tr)
        else
          let k := task_set_wait_obj k k.curr wo_type.WOBJ_KMUTEX maddr
          let tr := tr ++ [Ev.write Field.wait_list]
          (.yielded (enable_preemption k), tr ++ [Ev.enable, Ev.yield])

/-- `kmutex_lock` after `kernel_yield()` with its trace: the reads of the two
assertions (debug build) and of the `flags` test. -/
def kmutex_lock_woken_ev (cfg : Build) (k : Kernel) : Outcome Unit × List Ev :=
  let tr := dbg cfg [Ev.read Field.owner_task]
  if cfg.debug && !(kmutex_is_curr_task_holding_lock k) then (.abort k, tr)
  else
    let tr := tr ++ [Ev.read Field.flags]
    if is_recursive cfg k.m.flags then
      let tr := tr ++ dbg cfg [Ev.read Field.lock_count]
      if cfg.debug && !(k.m.lock_count == 1) then (.abort k, tr)
      else (.ret () k, tr)
    else (.ret () k, tr)

/-- `kmutex_trylock` with its trace. -/
def kmutex_trylock_ev (cfg : Build) (k0 : Kernel) : Outcome Bool × List Ev :=
  let k := disable_preemption k0
  let tr := [Ev.disable]
  if cfg.debug && in_irq_handler k then (.abort k, tr)
  else
    let tr := tr ++ [Ev.read Field.owner_task]
    if k.m.owner_task = 0 then
      let k := { k with m := { k.m with owner_task := k.curr } }
      let tr := tr ++ [Ev.write Field.owner_task, Ev.read Field.flags]
      if is_recursive cfg k.m.flags then
        let k := { k with m := { k.m with lock_count := k.m.lock_count + 1 } }
        let tr := tr ++ [Ev.read Field.lock_count, Ev.write Field.lock_count]
        (.ret true (enable_preemption k), tr ++ [Ev.enable])
      else (.ret true (enable_preemption k), tr ++ [Ev.enable])
    else
      let tr := tr ++ [Ev.read Field.flags]
      if is_recursive cfg k.m.flags then
        let tr := tr ++ [Ev.read Field.owner_task]
        if kmutex_is_curr_task_holding_lock k then
          let k := { k with m := { k.m with lock_count := k.m.lock_count + 1 } }
          let tr := tr ++ [Ev.read Field.lock_count, Ev.write Field.lock_count]
          (.ret true (enable_preemption k), tr ++ [Ev.enable])
        else (.ret false (enable_preemption k), tr ++ [Ev.enable])
      else (.ret false (enable_preemption k), tr ++ [Ev.enable])

/-- The tail of `kmutex_unlock` from `m->owner_task = NULL` on, with its trace
appended to the trace `tr` of the part before. -/
def kmutex_unlock_release_ev (cfg : Build) (k : Kernel) (tr : List Ev) :
    Outcome Unit × List Ev :=
  let k := { k with m := { k.m with owner_task := 0 } }
  let tr := tr ++ [Ev.write Field.owner_task, Ev.read Field.wait_list]
  match k.m.wait_list with
  | [] => (.ret () (enable_preemption k), tr ++ [Ev.enable])
  | ti :: _ =>
    let tr := tr ++ [Ev.read Field.wait_list]
    let k := { k with m := { k.m with owner_task := ti } }
    let tr := tr ++ [Ev.write Field.owner_task, Ev.read Field.flags]
    let k :=
      if is_recursive cfg k.m.flags then
        { k with m := { k.m with lock_count := k.m.lock_count + 1 } }
      else k
    let tr :=
      if is_recursive cfg k.m.flags then
        tr ++ [Ev.read Field.lock_count, Ev.write Field.lock_count]
      else tr
    if cfg.debug && !((k.tasks ti).state == task_state.TASK_STATE_SLEEPING) then (.abort k, tr)
    else
      (.ret () (enable_preemption (task_reset_wait_obj k ti)),
        tr ++ [Ev.write Field.wait_list, Ev.enable])

/-- `kmutex_unlock` with its trace. -/
def kmutex_unlock_ev (cfg : Build) (k0 : Kernel) : Outcome Unit × List Ev :=
  let k := disable_preemption k0
  let tr := [Ev.disable]
  if cfg.debug && in_irq_handler k then (.abort k, tr)
  else
    let tr := tr ++ dbg cfg [Ev.read Field.owner_task]
    if cfg.debug && !(kmutex_is_curr_task_holding_lock k) then (.abort k, tr)
    else
      let tr := tr ++ [Ev.read Field.flags]
      if is_recursive cfg k.m.flags then
        let tr := tr ++ dbg cfg [Ev.read Field.lock_count]
        if cfg.debug && !(decide (k.m.lock_count > 0)) then (.abort k, tr)
        else
          let k := { k with m := { k.m with lock_count := k.m.lock_count - 1 } }
          let tr := tr ++ [Ev.read Field.lock_count, Ev.write Field.lock_count]
          if k.m.lock_count > 0 then (.ret () (enable_preemption k), tr ++ [Ev.enable])
          else kmutex_unlock_release_ev cfg k tr
      else kmutex_unlock_release_ev cfg k tr

/-- Gate depth after a trace that starts at depth `d`. -/
def depth_after : Nat → List Ev → Nat
  | d, [] => d
  | d, Ev.disable :: es => depth_after (d + 1) es
  | d, Ev.enable :: es => depth_after (d - 1) es
  | d, Ev.read _ :: es => depth_after d es
  | d, Ev.write _ :: es => depth_after d es
  | d, Ev.yield :: es => depth_after d es

/-- A state outside the lock_count accounting: the recursive mutex is owned by
task 1 but its `lock_count` is 0 and nobody waits; `curr` is the running task. -/
def kernel_uncounted (curr : Nat) : Kernel :=
  kernel_with { flags := 1, lock_count := 0, owner_task := 1, wait_list := [] } curr

end Tilck

namespace Tilck

/-! ## Basic facts about the operations -/

theorem upd_apply {β : Type} (f : Nat → β) (a : Nat) (v : β) (x : Nat) :
    upd f a v x = if x = a then v else f x := rfl

@[simp] theorem upd_same {β : Type} (f : Nat → β) (a : Nat) (v : β) : upd f a v a = v := by
  simp [upd]

theorem upd_other {β : Type} (f : Nat → β) (a : Nat) (v : β) (x : Nat) (h : x ≠ a) :
    upd f a v x = f x := by
  simp [upd, h]

theorem inv_owner_count {cfg : Build} {maddr : Nat} {s : Sys} (h : Inv cfg maddr s)
    (ho : s.k.m.owner_task ≠ 0) (hr : is_recursive cfg s.k.m.flags = true) :
    0 < s.k.m.lock_count := by
  by_cases hb : s.blocked s.k.m.owner_task = true
  · have hns : (s.k.tasks s.k.m.owner_task).state ≠ task_state.TASK_STATE_SLEEPING := by
      intro hsl
      exact h.owner_not_waiting ((h.wl_iff _).2 ⟨hb, hsl⟩)
    have := (h.woken _ hb hns).2 hr
    omega
  · have hb' : s.blocked s.k.m.owner_task = false := by simpa using hb
    have := h.owner_running ho hb'
    have h2 := this.2 hr
    omega

/-- In a debug build every gated operation halts inside an interrupt handler. -/
theorem kmutex_lock_irq (cfg : Build) (maddr : Nat) (k : Kernel)
    (hd : cfg.debug = true) (hi : k.in_irq = true) :
    kmutex_lock cfg maddr k = .abort (disable_preemption k) := by
  simp [kmutex_lock, in_irq_handler, disable_preemption, hd, hi]

theorem kmutex_trylock_irq (cfg : Build) (k : Kernel)
    (hd : cfg.debug = true) (hi : k.in_irq = true) :
    kmutex_trylock cfg k = .abort (disable_preemption k) := by
  simp [kmutex_trylock, in_irq_handler, disable_preemption, hd, hi]

theorem kmutex_unlock_irq (cfg : Build) (k : Kernel)
    (hd : cfg.debug = true) (hi : k.in_irq = true) :
    kmutex_unlock cfg k = .abort (disable_preemption k) := by
  simp [kmutex_unlock, in_irq_handler, disable_preemption, hd, hi]

/-- Uncontended `kmutex_lock`. -/
theorem kmutex_lock_free (cfg : Build) (maddr : Nat) (k : Kernel)
    (hirq : cfg.debug = true → k.in_irq = false) (ho : k.m.owner_task = 0)
    (hlc : cfg.debug = true → is_recursive cfg k.m.flags = true → k.m.lock_count = 0) :
    kmutex_lock cfg maddr k = .ret ()
      { k with
        m := { k.m with
          owner_task := k.curr
          lock_count := if is_recursive cfg k.m.flags then k.m.lock_count + 1 else k.m.lock_count } } := by
  by_cases hd : cfg.debug = true <;> by_cases hr : is_recursive cfg k.m.flags = true <;>
    simp_all [kmutex_lock, in_irq_handler, disable_preemption, enable_preemption]

/-- Recursive re-entry of `kmutex_lock`. -/
theorem kmutex_lock_reenter (cfg : Build) (maddr : Nat) (k : Kernel)
    (hirq : cfg.debug = true → k.in_irq = false) (ho : k.m.owner_task ≠ 0)
    (hr : is_recursive cfg k.m.flags = true) (hc : k.m.owner_task = k.curr)
    (hlc : cfg.debug = true → 0 < k.m.lock_count) :
    kmutex_lock cfg maddr k = .ret ()
      { k with m := { k.m with lock_count := k.m.lock_count + 1 } } := by
  by_cases hd : cfg.debug = true
  · have := hlc hd
    simp_all [kmutex_lock, in_irq_handler, disable_preemption, enable_preemption,
      kmutex_is_curr_task_holding_lock]
  · simp_all [kmutex_lock, in_irq_handler, disable_preemption, enable_preemption,
      kmutex_is_curr_task_holding_lock]

/-- Contention path of `kmutex_lock`. -/
theorem kmutex_lock_contend (cfg : Build) (maddr : Nat) (k : Kernel)
    (hirq : cfg.debug = true → k.in_irq = false) (ho : k.m.owner_task ≠ 0)
    (hc : k.m.owner_task ≠ k.curr)
    (hlc : cfg.debug = true → is_recursive cfg k.m.flags = true → 0 < k.m.lock_count) :
    kmutex_lock cfg maddr k = .yielded
      { k with
        tasks := upd k.tasks k.curr
          { state := task_state.TASK_STATE_SLEEPING,
            wobj := { type := wo_type.WOBJ_KMUTEX, ptr := maddr } }
        m := { k.m with wait_list := k.m.wait_list ++ [k.curr] } } := by
  by_cases hd : cfg.debug = true <;> by_cases hr : is_recursive cfg k.m.flags = true <;>
    simp_all [kmutex_lock, in_irq_handler, disable_preemption, enable_preemption,
      kmutex_is_curr_task_holding_lock, task_set_wait_obj]

/-- Successful `kmutex_trylock` on a free mutex. -/
theorem kmutex_trylock_free (cfg : Build) (k : Kernel)
    (hirq : cfg.debug = true → k.in_irq = false) (ho : k.m.owner_task = 0) :
    kmutex_trylock cfg k = .ret true
      { k with
        m := { k.m with
          owner_task := k.curr
          lock_count := if is_recursive cfg k.m.flags then k.m.lock_count + 1 else k.m.lock_count } } := by
  by_cases hd : cfg.debug = true <;> by_cases hr : is_recursive cfg k.m.flags = true <;>
    simp_all [kmutex_trylock, in_irq_handler, disable_preemption, enable_preemption]

/-- Successful re-entry of `kmutex_trylock`. -/
theorem kmutex_trylock_reenter (cfg : Build) (k : Kernel)
    (hirq : cfg.debug = true → k.in_irq = false) (ho : k.m.owner_task ≠ 0)
    (hr : is_recursive cfg k.m.flags = true) (hc : k.m.owner_task = k.curr) :
    kmutex_trylock cfg k = .ret true
      { k with m := { k.m with lock_count := k.m.lock_count + 1 } } := by
  by_cases hd : cfg.debug = true <;>
    simp_all [kmutex_trylock, in_irq_handler, disable_preemption, enable_preemption,
      kmutex_is_curr_task_holding_lock]

/-- Failing `kmutex_trylock`: the kernel state is the one before the call. -/
theorem kmutex_trylock_fail (cfg : Build) (k : Kernel)
    (hirq : cfg.debug = true → k.in_irq = false) (ho : k.m.owner_task ≠ 0)
    (hc : is_recursive cfg k.m.flags = true → k.m.owner_task ≠ k.curr) :
    kmutex_trylock cfg k = .ret false k := by
  obtain ⟨⟨f, lc, o, wl⟩, tasks, curr, d, irq⟩ := k
  by_cases hd : cfg.debug = true <;> by_cases hr : is_recursive cfg f = true <;>
    simp_all [kmutex_trylock, in_irq_handler, disable_preemption, enable_preemption,
      kmutex_is_curr_task_holding_lock]

/-- Nested release of a recursive mutex. -/
theorem kmutex_unlock_nested (cfg : Build) (k : Kernel)
    (hirq : cfg.debug = true → k.in_irq = false)
    (hc : k.m.owner_task = k.curr)
    (hr : is_recursive cfg k.m.flags = true) (hlc : 2 ≤ k.m.lock_count) :
    kmutex_unlock cfg k = .ret ()
      { k with m := { k.m with lock_count := k.m.lock_count - 1 } } := by
  have h1 : 0 < k.m.lock_count := by omega
  have h2 : 0 < k.m.lock_count - 1 := by omega
  by_cases hd : cfg.debug = true <;>
    simp_all [kmutex_unlock, in_irq_handler, disable_preemption, enable_preemption,
      kmutex_is_curr_task_holding_lock]

/-- The release part of `kmutex_unlock` is reached by a final release. -/
theorem kmutex_unlock_final (cfg : Build) (k : Kernel)
    (hirq : cfg.debug = true → k.in_irq = false)
    (hc : k.m.owner_task = k.curr)
    (hlc : is_recursive cfg k.m.flags = true → k.m.lock_count = 1) :
    kmutex_unlock cfg k = kmutex_unlock_release cfg
      { k with
        disable_preemption_count := k.disable_preemption_count + 1
        m := { k.m with
          lock_count := if is_recursive cfg k.m.flags then 0 else k.m.lock_count } } := by
  obtain ⟨⟨f, lc, o, wl⟩, tasks, curr, d, irq⟩ := k
  by_cases hd : cfg.debug = true <;> by_cases hr : is_recursive cfg f = true <;>
    simp_all [kmutex_unlock, in_irq_handler, disable_preemption, enable_preemption,
      kmutex_is_curr_task_holding_lock]

/-- Release with an empty wait list. -/
theorem kmutex_unlock_release_empty (cfg : Build) (k : Kernel)
    (hwl : k.m.wait_list = []) :
    kmutex_unlock_release cfg k = .ret ()
      { k with
        disable_preemption_count := k.disable_preemption_count - 1
        m := { k.m with owner_task := 0 } } := by
  simp [kmutex_unlock_release, hwl, enable_preemption]

/-- Release with waiters: the handoff to the head of the wait list. -/
theorem kmutex_unlock_release_handoff (cfg : Build) (k : Kernel) (t : Nat) (r : List Nat)
    (hwl : k.m.wait_list = t :: r)
    (hsl : cfg.debug = true → (k.tasks t).state = task_state.TASK_STATE_SLEEPING) :
    kmutex_unlock_release cfg k = .ret ()
      { k with
        disable_preemption_count := k.disable_preemption_count - 1
        tasks := upd k.tasks t
          { state := task_state.TASK_STATE_RUNNABLE,
            wobj := { type := wo_type.WOBJ_NONE, ptr := 0 } }
        m := { k.m with
          owner_task := t
          lock_count := if is_recursive cfg k.m.flags then k.m.lock_count + 1 else k.m.lock_count
          wait_list := r } } := by
  by_cases hd : cfg.debug = true <;> by_cases hr : is_recursive cfg k.m.flags = true <;>
    simp_all [kmutex_unlock_release, enable_preemption, task_reset_wait_obj]

/-! ## Preservation of the invariant -/

/-- No task is in its critical section while the mutex is free. -/
theorem inv_free_held {cfg : Build} {maddr : Nat} {s : Sys} (h : Inv cfg maddr s)
    (ho : s.k.m.owner_task = 0) (d : Nat) : s.held d = 0 := by
  by_contra hne
  have := h.held_owner d (by omega)
  exact this.2 (this.1.symm.trans ho)

/-- Taking a free mutex keeps the invariant. -/
theorem inv_acquire {cfg : Build} {maddr : Nat} {s : Sys} (h : Inv cfg maddr s)
    (c : Nat) (hc0 : c ≠ 0) (hb : s.blocked c = false) (ho : s.k.m.owner_task = 0)
    (k' : Kernel)
    (hf : k'.m.flags = s.k.m.flags)
    (hl : k'.m.lock_count =
      if is_recursive cfg s.k.m.flags then s.k.m.lock_count + 1 else s.k.m.lock_count)
    (hw : k'.m.wait_list = s.k.m.wait_list)
    (hown : k'.m.owner_task = c)
    (ht : k'.tasks = s.k.tasks) :
    Inv cfg maddr { k := k', held := upd s.held c (s.held c + 1),
                    blocked := s.blocked } := by
  have hz := inv_free_held h ho
  obtain ⟨hwl, hlc⟩ := h.free ho
  refine ⟨?_, ?_, ?_, ?_, ?_, ?_, ?_, ?_, ?_, ?_, ?_⟩ <;> dsimp only <;>
    try simp only [hf, hl, hw, hown, ht, hwl, hlc]
  · intro d hd
    by_cases hdc : d = c
    · subst hdc; exact ⟨rfl, hc0⟩
    · simp [upd_apply, hdc, hz d] at hd
  · intro d hd
    by_cases hdc : d = c
    · subst hdc; simp [hb] at hd
    · simp only [upd_apply, hdc, if_false]
      exact h.blocked_held d hd
  · intro d
    have := h.wl_iff d
    rw [hwl] at this
    exact this
  · exact List.nodup_nil
  · intro d hd
    simp at hd
  · intro d hd hds
    have := (h.woken d hd hds).1
    exact absurd (this.symm.trans ho) (h.blocked_held d hd).2
  · intro hc
    exact absurd hc hc0
  · intro hr
    simp [hr]
  · intro _ _
    simp only [upd_same, hz c]
    refine ⟨by omega, fun hr => ?_⟩
    simp [hr]
  · intro hr d
    by_cases hdc : d = c
    · subst hdc; simp [hz d]
    · simp [upd_apply, hdc, hz d]
  · simp

/-- A call that changes neither the mutex record nor the tasks keeps the
invariant. -/
theorem inv_same {cfg : Build} {maddr : Nat} {s : Sys} (h : Inv cfg maddr s)
    (k' : Kernel) (hm : k'.m = s.k.m) (ht : k'.tasks = s.k.tasks) :
    Inv cfg maddr { k := k', held := s.held, blocked := s.blocked } := by
  refine ⟨?_, ?_, ?_, ?_, ?_, ?_, ?_, ?_, ?_, ?_, ?_⟩ <;> dsimp only <;>
    try simp only [hm, ht]
  · exact h.held_owner
  · exact h.blocked_held
  · exact h.wl_iff
  · exact h.wl_nodup
  · exact h.wl_wobj
  · exact h.woken
  · exact h.free
  · exact h.nonrec_count
  · exact h.owner_running
  · exact h.nonrec_held
  · exact h.owner_not_waiting

/-- Recursive re-entry by the owner keeps the invariant. -/
theorem inv_reenter {cfg : Build} {maddr : Nat} {s : Sys} (h : Inv cfg maddr s)
    (c : Nat) (hc0 : c ≠ 0) (hb : s.blocked c = false) (ho : s.k.m.owner_task = c)
    (hr : is_recursive cfg s.k.m.flags = true)
    (k' : Kernel)
    (hf : k'.m.flags = s.k.m.flags)
    (hl : k'.m.lock_count = s.k.m.lock_count + 1)
    (hw : k'.m.wait_list = s.k.m.wait_list)
    (hown : k'.m.owner_task = s.k.m.owner_task)
    (ht : k'.tasks = s.k.tasks) :
    Inv cfg maddr { k := k', held := upd s.held c (s.held c + 1),
                    blocked := s.blocked } := by
  have hrun := h.owner_running (by rw [ho]; exact hc0) (by rw [ho]; exact hb)
  rw [ho] at hrun
  refine ⟨?_, ?_, ?_, ?_, ?_, ?_, ?_, ?_, ?_, ?_, ?_⟩ <;> dsimp only <;>
    try simp only [hf, hl, hw, hown, ht]
  · intro d hd
    by_cases hdc : d = c
    · subst hdc; exact ⟨ho, hc0⟩
    · simp only [upd_apply, hdc, if_false] at hd
      exact h.held_owner d hd
  · intro d hd
    by_cases hdc : d = c
    · subst hdc; simp [hb] at hd
    · simp only [upd_apply, hdc, if_false]
      exact h.blocked_held d hd
  · exact h.wl_iff
  · exact h.wl_nodup
  · exact h.wl_wobj
  · intro d hd hds
    have := (h.woken d hd hds).1
    rw [ho] at this
    subst this
    simp [hb] at hd
  · intro h0
    exact absurd (ho.symm.trans h0) hc0
  · intro hr'
    simp [hr] at hr'
  · intro _ _
    rw [ho, upd_same]
    exact ⟨by omega, fun _ => by rw [hrun.2 hr]⟩
  · intro hr'
    simp [hr] at hr'
  · exact h.owner_not_waiting

/-- The contention path of `kmutex_lock` keeps the invariant. -/
theorem inv_enqueue {cfg : Build} {maddr : Nat} {s : Sys} (h : Inv cfg maddr s)
    (c : Nat) (hc0 : c ≠ 0) (hb : s.blocked c = false)
    (ho0 : s.k.m.owner_task ≠ 0) (ho : s.k.m.owner_task ≠ c)
    (k' : Kernel)
    (hf : k'.m.flags = s.k.m.flags)
    (hl : k'.m.lock_count = s.k.m.lock_count)
    (hw : k'.m.wait_list = s.k.m.wait_list ++ [c])
    (hown : k'.m.owner_task = s.k.m.owner_task)
    (ht : k'.tasks = upd s.k.tasks c
      { state := task_state.TASK_STATE_SLEEPING,
        wobj := { type := wo_type.WOBJ_KMUTEX, ptr := maddr } }) :
    Inv cfg maddr { k := k', held := s.held, blocked := upd s.blocked c true } := by
  have hheld : s.held c = 0 := by
    by_contra hne
    exact ho (h.held_owner c (by omega)).1
  have hcw : c ∉ s.k.m.wait_list := by
    intro hin
    have := ((h.wl_iff c).1 hin).1
    simp [hb] at this
  refine ⟨?_, ?_, ?_, ?_, ?_, ?_, ?_, ?_, ?_, ?_, ?_⟩ <;> dsimp only <;>
    try simp only [hf, hl, hw, hown, ht]
  · exact h.held_owner
  · intro d hd
    by_cases hdc : d = c
    · subst hdc; exact ⟨hheld, hc0⟩
    · simp only [upd_apply, hdc, if_false] at hd
      exact h.blocked_held d hd
  · intro d
    by_cases hdc : d = c
    · subst hdc; simp
    · simp only [upd_apply, hdc, if_false, List.mem_append, List.mem_singleton, or_false]
      exact h.wl_iff d
  · rw [List.nodup_append]
    refine ⟨h.wl_nodup, List.nodup_singleton c, ?_⟩
    intro a ha
    simp only [List.mem_singleton]
    intro hac
    exact hcw (hac ▸ ha)
  · intro d hd
    by_cases hdc : d = c
    · subst hdc; simp
    · simp only [upd_apply, hdc, if_false]
      simp only [List.mem_append, List.mem_singleton, hdc, or_false] at hd
      exact h.wl_wobj d hd
  · intro d hd hds
    by_cases hdc : d = c
    · subst hdc; simp at hds
    · simp only [upd_apply, hdc, if_false] at hd hds
      exact h.woken d hd hds
  · intro h0
    exact absurd h0 ho0
  · exact h.nonrec_count
  · intro h0 hbo
    simp only [upd_apply, ho, if_false] at hbo
    exact h.owner_running h0 hbo
  · exact h.nonrec_held
  · intro hin
    simp only [List.mem_append, List.mem_singleton, ho, or_false] at hin
    exact h.owner_not_waiting hin

/-- A nested release of a recursive mutex keeps the invariant. -/
theorem inv_nested {cfg : Build} {maddr : Nat} {s : Sys} (h : Inv cfg maddr s)
    (c : Nat) (hc0 : c ≠ 0) (hb : s.blocked c = false) (ho : s.k.m.owner_task = c)
    (hr : is_recursive cfg s.k.m.flags = true) (hlc : 2 ≤ s.k.m.lock_count)
    (k' : Kernel)
    (hf : k'.m.flags = s.k.m.flags)
    (hl : k'.m.lock_count = s.k.m.lock_count - 1)
    (hw : k'.m.wait_list = s.k.m.wait_list)
    (hown : k'.m.owner_task = s.k.m.owner_task)
    (ht : k'.tasks = s.k.tasks) :
    Inv cfg maddr { k := k', held := upd s.held c (s.held c - 1),
                    blocked := s.blocked } := by
  have hrun := h.owner_running (by rw [ho]; exact hc0) (by rw [ho]; exact hb)
  rw [ho] at hrun
  have hcnt := hrun.2 hr
  refine ⟨?_, ?_, ?_, ?_, ?_, ?_, ?_, ?_, ?_, ?_, ?_⟩ <;> dsimp only <;>
    try simp only [hf, hl, hw, hown, ht]
  · intro d hd
    by_cases hdc : d = c
    · subst hdc; exact ⟨ho, hc0⟩
    · simp only [upd_apply, hdc, if_false] at hd
      exact h.held_owner d hd
  · intro d hd
    by_cases hdc : d = c
    · subst hdc; simp [hb] at hd
    · simp only [upd_apply, hdc, if_false]
      exact h.blocked_held d hd
  · exact h.wl_iff
  · exact h.wl_nodup
  · exact h.wl_wobj
  · intro d hd hds
    have := (h.woken d hd hds).1
    rw [ho] at this
    subst this
    simp [hb] at hd
  · intro h0
    exact absurd (ho.symm.trans h0) hc0
  · intro hr'
    simp [hr] at hr'
  · intro _ _
    rw [ho, upd_same]
    exact ⟨by omega, fun _ => by omega⟩
  · intro hr'
    simp [hr] at hr'
  · exact h.owner_not_waiting

/-- The holder of the mutex about to do its final release holds it once. -/
theorem inv_final_held {cfg : Build} {maddr : Nat} {s : Sys} (h : Inv cfg maddr s)
    (c : Nat) (hh : 0 < s.held c) (hb : s.blocked c = false)
    (hlc : is_recursive cfg s.k.m.flags = true → s.k.m.lock_count = 1) :
    s.held c = 1 := by
  obtain ⟨ho, hc0⟩ := h.held_owner c hh
  by_cases hr : is_recursive cfg s.k.m.flags = true
  · have hrun := h.owner_running (by rw [ho]; exact hc0) (by rw [ho]; exact hb)
    rw [ho] at hrun
    have := hrun.2 hr
    have := hlc hr
    omega
  · have := h.nonrec_held (by simpa using hr) c
    omega

/-- Every other task is outside its critical section. -/
theorem inv_other_held {cfg : Build} {maddr : Nat} {s : Sys} (h : Inv cfg maddr s)
    (c : Nat) (ho : s.k.m.owner_task = c) (d : Nat) (hdc : d ≠ c) : s.held d = 0 := by
  by_contra hne
  have := (h.held_owner d (by omega)).1
  exact hdc (this.symm.trans ho)

/-- A final release with no waiter keeps the invariant. -/
theorem inv_release_empty {cfg : Build} {maddr : Nat} {s : Sys} (h : Inv cfg maddr s)
    (c : Nat) (hh : 0 < s.held c) (hb : s.blocked c = false)
    (hlc : is_recursive cfg s.k.m.flags = true → s.k.m.lock_count = 1)
    (hwl : s.k.m.wait_list = [])
    (k' : Kernel)
    (hf : k'.m.flags = s.k.m.flags)
    (hl : k'.m.lock_count = if is_recursive cfg s.k.m.flags then 0 else s.k.m.lock_count)
    (hw : k'.m.wait_list = s.k.m.wait_list)
    (hown : k'.m.owner_task = 0)
    (ht : k'.tasks = s.k.tasks) :
    Inv cfg maddr { k := k', held := upd s.held c (s.held c - 1),
                    blocked := s.blocked } := by
  obtain ⟨ho, hc0⟩ := h.held_owner c hh
  have h1 := inv_final_held h c hh hb hlc
  have hoth := inv_other_held h c ho
  have hall : ∀ d, upd s.held c (s.held c - 1) d = 0 := by
    intro d
    by_cases hdc : d = c
    · subst hdc; simp [h1]
    · simp [upd_apply, hdc, hoth d hdc]
  refine ⟨?_, ?_, ?_, ?_, ?_, ?_, ?_, ?_, ?_, ?_, ?_⟩ <;> dsimp only <;>
    try simp only [hf, hl, hw, hown, ht, hall, hwl]
  · intro d hd
    omega
  · intro d hd
    exact ⟨trivial, (h.blocked_held d hd).2⟩
  · intro d
    have := h.wl_iff d
    rw [hwl] at this
    exact this
  · exact List.nodup_nil
  · intro d hd
    simp at hd
  · intro d hd hds
    have := (h.woken d hd hds).1
    rw [ho] at this
    subst this
    simp [hb] at hd
  · intro _
    refine ⟨trivial, ?_⟩
    by_cases hr : is_recursive cfg s.k.m.flags = true
    · simp [hr]
    · simp only [hr]
      exact h.nonrec_count (by simpa using hr)
  · intro hr
    simp only [hr]
    exact h.nonrec_count hr
  · intro h0
    exact absurd rfl h0
  · intro _ d
    omega
  · simp

/-- The handoff to the head of the wait list keeps the invariant. -/
theorem inv_handoff {cfg : Build} {maddr : Nat} {s : Sys} (h : Inv cfg maddr s)
    (c : Nat) (hh : 0 < s.held c) (hb : s.blocked c = false)
    (hlc : is_recursive cfg s.k.m.flags = true → s.k.m.lock_count = 1)
    (t : Nat) (r : List Nat) (hwl : s.k.m.wait_list = t :: r)
    (k' : Kernel)
    (hf : k'.m.flags = s.k.m.flags)
    (hl : k'.m.lock_count = if is_recursive cfg s.k.m.flags then 1 else s.k.m.lock_count)
    (hw : k'.m.wait_list = r)
    (hown : k'.m.owner_task = t)
    (ht : k'.tasks = upd s.k.tasks t
      { state := task_state.TASK_STATE_RUNNABLE,
        wobj := { type := wo_type.WOBJ_NONE, ptr := 0 } }) :
    Inv cfg maddr { k := k', held := upd s.held c (s.held c - 1),
                    blocked := s.blocked } := by
  obtain ⟨ho, hc0⟩ := h.held_owner c hh
  have h1 := inv_final_held h c hh hb hlc
  have hoth := inv_other_held h c ho
  have hall : ∀ d, upd s.held c (s.held c - 1) d = 0 := by
    intro d
    by_cases hdc : d = c
    · subst hdc; simp [h1]
    · simp [upd_apply, hdc, hoth d hdc]
  have hnd := h.wl_nodup
  rw [hwl, List.nodup_cons] at hnd
  have htw := (h.wl_iff t).1 (by rw [hwl]; exact List.mem_cons_self t r)
  have ht0 := (h.blocked_held t htw.1).2
  refine ⟨?_, ?_, ?_, ?_, ?_, ?_, ?_, ?_, ?_, ?_, ?_⟩ <;> dsimp only <;>
    try simp only [hf, hl, hw, hown, ht, hall]
  · intro d hd
    omega
  · intro d hd
    exact ⟨trivial, (h.blocked_held d hd).2⟩
  · intro d
    by_cases hdt : d = t
    · subst hdt
      simp [hnd.1]
    · simp only [upd_apply, hdt, if_false]
      have := h.wl_iff d
      rw [hwl] at this
      simpa [hdt] using this
  · exact hnd.2
  · intro d hd
    have hdt : d ≠ t := fun e => hnd.1 (e ▸ hd)
    simp only [upd_apply, hdt, if_false]
    exact h.wl_wobj d (by rw [hwl]; exact List.mem_cons_of_mem t hd)
  · intro d hd hds
    by_cases hdt : d = t
    · subst hdt
      refine ⟨rfl, fun hr => ?_⟩
      simp [hr]
    · simp only [upd_apply, hdt, if_false] at hds
      have := (h.woken d hd hds).1
      rw [ho] at this
      subst this
      simp [hb] at hd
  · intro h0
    exact absurd h0 ht0
  · intro hr
    simp only [hr]
    exact h.nonrec_count hr
  · intro _ hbt
    simp [htw.1] at hbt
  · intro _ d
    omega
  · exact hnd.1

theorem step_inv_resume {cfg : Build} {maddr : Nat} {s s' : Sys} (c : Nat)
    (h : Inv cfg maddr s) (hs : sys_step cfg maddr s (.resume c) = some s') :
    Inv cfg maddr s' := by
  simp only [sys_step] at hs
  split at hs
  case isFalse => simp at hs
  case isTrue hg =>
    simp only [Bool.and_eq_true, decide_eq_true_eq, Bool.not_eq_true', beq_eq_false_iff_ne] at hg
    obtain ⟨⟨hc0, hb⟩, hns⟩ := hg
    obtain ⟨hown, hcnt⟩ := h.woken c hb hns
    have hheld := (h.blocked_held c hb).1
    have hw : kmutex_lock_woken cfg { s.k with curr := c } = .ret () { s.k with curr := c } := by
      by_cases hr : is_recursive cfg s.k.m.flags = true
      · simp [kmutex_lock_woken, kmutex_is_curr_task_holding_lock, hown, hr, hcnt hr]
      · simp [kmutex_lock_woken, kmutex_is_curr_task_holding_lock, hown, hr]
    rw [hw] at hs
    simp only [Option.some.injEq] at hs
    subst hs
    refine ⟨?_, ?_, ?_, ?_, ?_, ?_, ?_, ?_, ?_, ?_, ?_⟩
    · intro d hd
      by_cases hdc : d = c
      · subst hdc; exact ⟨hown, hc0⟩
      · simp only [upd_apply, hdc, if_false] at hd
        exact h.held_owner d hd
    · intro d hd
      by_cases hdc : d = c
      · subst hdc; simp at hd
      · simp only [upd_apply, hdc, if_false] at hd ⊢
        exact h.blocked_held d hd
    · intro d
      by_cases hdc : d = c
      · subst hdc
        simp only [upd_same]
        have := h.wl_iff d
        simp only [this]
        simp [hns]
      · simp only [upd_apply, hdc, if_false]
        exact h.wl_iff d
    · exact h.wl_nodup
    · exact h.wl_wobj
    · intro d hd hds
      by_cases hdc : d = c
      · subst hdc; simp at hd
      · simp only [upd_apply, hdc, if_false] at hd
        have := (h.woken d hd hds).1
        exact absurd (this.symm.trans hown) hdc
    · exact h.free
    · exact h.nonrec_count
    · intro _ _
      dsimp only
      rw [hown, upd_same, hheld]
      exact ⟨by omega, fun hr => by simpa using hcnt hr⟩
    · intro hr d
      by_cases hdc : d = c
      · subst hdc; simp [hheld]
      · simp only [upd_apply, hdc, if_false]
        exact h.nonrec_held hr d
    · exact h.owner_not_waiting

theorem step_inv_lock {cfg : Build} {maddr : Nat} {s s' : Sys} (c : Nat)
    (h : Inv cfg maddr s) (hs : sys_step cfg maddr s (.lock c) = some s') :
    Inv cfg maddr s' := by
  simp only [sys_step] at hs
  split at hs
  case isFalse => simp at hs
  case isTrue hg =>
    simp only [can_call, Bool.and_eq_true, Bool.or_eq_true, decide_eq_true_eq,
      Bool.not_eq_true', beq_eq_false_iff_ne, beq_iff_eq] at hg
    obtain ⟨⟨⟨hc0, hb⟩, hns⟩, hcontract⟩ := hg
    by_cases hirq : cfg.debug = true ∧ s.k.in_irq = true
    · rw [kmutex_lock_irq cfg maddr { s.k with curr := c } hirq.1 hirq.2] at hs
      simp at hs
    have hirq' : cfg.debug = true → s.k.in_irq = false := by
      intro hd
      simpa [hd] using hirq
    by_cases ho : s.k.m.owner_task = 0
    · have hlc := (h.free ho).2
      rw [kmutex_lock_free cfg maddr { s.k with curr := c } hirq' ho (fun _ _ => hlc)] at hs
      simp only [Option.some.injEq] at hs
      subst hs
      exact inv_acquire h c hc0 hb ho _ rfl rfl rfl rfl rfl
    by_cases hre : is_recursive cfg s.k.m.flags = true ∧ s.k.m.owner_task = c
    · have hcnt := inv_owner_count h ho hre.1
      rw [kmutex_lock_reenter cfg maddr { s.k with curr := c } hirq' ho hre.1 hre.2
        (fun _ => hcnt)] at hs
      simp only [Option.some.injEq] at hs
      subst hs
      exact inv_reenter h c hc0 hb hre.2 hre.1 _ rfl rfl rfl rfl rfl
    · have hoc : s.k.m.owner_task ≠ c := by
        intro hoc
        rcases hcontract with hr | hz
        · exact hre ⟨hr, hoc⟩
        · have := (h.owner_running ho (by rw [hoc]; exact hb)).1
          rw [hoc] at this
          omega
      rw [kmutex_lock_contend cfg maddr { s.k with curr := c } hirq' ho hoc
        (fun _ hr => inv_owner_count h ho hr)] at hs
      simp only [Option.some.injEq] at hs
      subst hs
      exact inv_enqueue h c hc0 hb ho hoc _ rfl rfl rfl rfl rfl

theorem step_inv_trylock {cfg : Build} {maddr : Nat} {s s' : Sys} (c : Nat)
    (h : Inv cfg maddr s) (hs : sys_step cfg maddr s (.trylock c) = some s') :
    Inv cfg maddr s' := by
  simp only [sys_step] at hs
  split at hs
  case isFalse => simp at hs
  case isTrue hg =>
    simp only [can_call, Bool.and_eq_true, decide_eq_true_eq,
      Bool.not_eq_true', beq_eq_false_iff_ne] at hg
    obtain ⟨⟨hc0, hb⟩, hns⟩ := hg
    by_cases hirq : cfg.debug = true ∧ s.k.in_irq = true
    · rw [kmutex_trylock_irq cfg { s.k with curr := c } hirq.1 hirq.2] at hs
      simp at hs
    have hirq' : cfg.debug = true → s.k.in_irq = false := by
      intro hd
      simpa [hd] using hirq
    by_cases ho : s.k.m.owner_task = 0
    · rw [kmutex_trylock_free cfg { s.k with curr := c } hirq' ho] at hs
      simp only [Option.some.injEq] at hs
      subst hs
      exact inv_acquire h c hc0 hb ho _ rfl rfl rfl rfl rfl
    by_cases hre : is_recursive cfg s.k.m.flags = true ∧ s.k.m.owner_task = c
    · rw [kmutex_trylock_reenter cfg { s.k with curr := c } hirq' ho hre.1 hre.2] at hs
      simp only [Option.some.injEq] at hs
      subst hs
      exact inv_reenter h c hc0 hb hre.2 hre.1 _ rfl rfl rfl rfl rfl
    · rw [kmutex_trylock_fail cfg { s.k with curr := c } hirq' ho
        (fun hr hoc => hre ⟨hr, hoc⟩)] at hs
      simp only [Option.some.injEq] at hs
      subst hs
      exact inv_same h _ rfl rfl

theorem step_inv_unlock {cfg : Build} {maddr : Nat} {s s' : Sys} (c : Nat)
    (h : Inv cfg maddr s) (hs : sys_step cfg maddr s (.unlock c) = some s') :
    Inv cfg maddr s' := by
  simp only [sys_step] at hs
  split at hs
  case isFalse => simp at hs
  case isTrue hg =>
    simp only [can_call, Bool.and_eq_true, decide_eq_true_eq,
      Bool.not_eq_true', beq_eq_false_iff_ne] at hg
    obtain ⟨⟨⟨hc0, hb⟩, hns⟩, hh⟩ := hg
    obtain ⟨ho, _⟩ := h.held_owner c hh
    have ho0 : s.k.m.owner_task ≠ 0 := by rw [ho]; exact hc0
    by_cases hirq : cfg.debug = true ∧ s.k.in_irq = true
    · rw [kmutex_unlock_irq cfg { s.k with curr := c } hirq.1 hirq.2] at hs
      simp at hs
    have hirq' : cfg.debug = true → s.k.in_irq = false := by
      intro hd
      simpa [hd] using hirq
    by_cases hn : is_recursive cfg s.k.m.flags = true ∧ 2 ≤ s.k.m.lock_count
    · rw [kmutex_unlock_nested cfg { s.k with curr := c } hirq' ho hn.1 hn.2] at hs
      simp only [Option.some.injEq] at hs
      subst hs
      exact inv_nested h c hc0 hb ho hn.1 hn.2 _ rfl rfl rfl rfl rfl
    have hlc : is_recursive cfg s.k.m.flags = true → s.k.m.lock_count = 1 := by
      intro hr
      have := inv_owner_count h ho0 hr
      have : ¬ 2 ≤ s.k.m.lock_count := fun h2 => hn ⟨hr, h2⟩
      omega
    rw [kmutex_unlock_final cfg { s.k with curr := c } hirq' ho hlc] at hs
    cases hwl : s.k.m.wait_list with
    | nil =>
      rw [kmutex_unlock_release_empty] at hs
      · simp only [Option.some.injEq] at hs
        subst hs
        exact inv_release_empty h c hh hb hlc hwl _ rfl rfl rfl rfl rfl
      · exact hwl
    | cons t r =>
      have htw := (h.wl_iff t).1 (by rw [hwl]; exact List.mem_cons_self t r)
      rw [kmutex_unlock_release_handoff cfg _ t r] at hs
      · simp only [Option.some.injEq] at hs
        subst hs
        refine inv_handoff h c hh hb hlc t r hwl _ rfl ?_ rfl rfl rfl
        dsimp only
        by_cases hr : is_recursive cfg s.k.m.flags = true <;> simp [hr]
      · exact hwl
      · exact fun _ => htw.2

/-- Every step keeps the invariant. -/
theorem step_inv {cfg : Build} {maddr : Nat} {s s' : Sys} (a : Action)
    (h : Inv cfg maddr s) (hs : sys_step cfg maddr s a = some s') :
    Inv cfg maddr s' := by
  cases a with
  | lock c => exact step_inv_lock c h hs
  | trylock c => exact step_inv_trylock c h hs
  | unlock c => exact step_inv_unlock c h hs
  | resume c => exact step_inv_resume c h hs

/-- Every schedule keeps the invariant. -/
theorem run_inv {cfg : Build} {maddr : Nat} (acts : List Action) :
    ∀ {s s' : Sys}, Inv cfg maddr s → sys_run cfg maddr s acts = some s' →
      Inv cfg maddr s' := by
  induction acts with
  | nil =>
    intro s s' h hs
    simp only [sys_run, Option.some.injEq] at hs
    exact hs ▸ h
  | cons a as ih =>
    intro s s' h hs
    simp only [sys_run] at hs
    cases hst : sys_step cfg maddr s a with
    | none => simp [hst] at hs
    | some s1 =>
      rw [hst] at hs
      exact ih (step_inv a h hst) hs

/-- The state after `kmutex_init` satisfies the invariant. -/
theorem init_inv {cfg : Build} {maddr : Nat} {flags : Nat} {k0 : Kernel} {s0 : Sys}
    (hi : sys_init cfg flags k0 = some s0) : Inv cfg maddr s0 := by
  simp only [sys_init, kmutex_init] at hi
  split at hi
  case h_2 => simp at hi
  case h_1 _ k hk =>
    split at hk
    · simp at hk
    · simp only [Outcome.ret.injEq, true_and] at hk
      simp only [Option.some.injEq] at hi
      subst hk
      subst hi
      refine ⟨?_, ?_, ?_, ?_, ?_, ?_, ?_, ?_, ?_, ?_, ?_⟩ <;> simp

/-- Every reachable state satisfies the invariant. -/
theorem reachable_inv {cfg : Build} {maddr : Nat} {s : Sys}
    (h : Reachable cfg maddr s) : Inv cfg maddr s := by
  obtain ⟨flags, k0, s0, acts, hi, hr⟩ := h
  exact run_inv acts (init_inv hi) hr

/-! ## The claims -/

theorem reachable_sys_held : Reachable cfg_debug 100 sys_held :=
  ⟨0, kernel_boot, sys_fresh 0, [Action.lock 1], rfl, rfl⟩

theorem reachable_sys_contended : Reachable cfg_debug 100 sys_contended :=
  ⟨0, kernel_boot, sys_fresh 0, [Action.lock 1, Action.lock 2], rfl, rfl⟩

theorem reachable_sys_handed_off : Reachable cfg_debug 100 sys_handed_off :=
  ⟨1, kernel_boot, sys_fresh 1,
    [Action.lock 1, Action.lock 2, Action.unlock 1, Action.lock 3, Action.trylock 4], rfl, rfl⟩

/-- Tasks that call `kmutex_lock` on an owned mutex one after the other are all
suspended and appended to the wait list in the order of their calls. -/
theorem block_all_spec (cfg : Build) (maddr : Nat) (ts : List Nat) :
    ∀ k : Kernel, (cfg.debug = true → k.in_irq = false) → k.m.owner_task ≠ 0 →
      k.m.owner_task ∉ ts →
      (cfg.debug = true → is_recursive cfg k.m.flags = true → 0 < k.m.lock_count) →
      ∃ k1, block_all cfg maddr k ts = some k1 ∧
        k1.m.wait_list = k.m.wait_list ++ ts ∧
        k1.m.owner_task = k.m.owner_task ∧ k1.m.flags = k.m.flags ∧
        k1.m.lock_count = k.m.lock_count ∧ k1.in_irq = k.in_irq ∧
        (∀ t, t ∈ ts → (k1.tasks t).state = task_state.TASK_STATE_SLEEPING) ∧
        (∀ t, t ∉ ts → k1.tasks t = k.tasks t) := by
  induction ts with
  | nil =>
    intro k _ _ _ _
    exact ⟨k, rfl, by simp, rfl, rfl, rfl, rfl, by simp, fun _ _ => rfl⟩
  | cons t ts ih =>
    intro k hirq ho hown hlc
    have hot : k.m.owner_task ≠ t := fun e => hown (e ▸ List.mem_cons_self _ _)
    have hots : k.m.owner_task ∉ ts := fun e => hown (List.mem_cons_of_mem _ e)
    have hl := kmutex_lock_contend cfg maddr { k with curr := t } hirq ho hot hlc
    obtain ⟨k1, h1, h2, h3, h4, h5, h6, h7, h8⟩ := ih _
      (show cfg.debug = true → (Outcome.kernel (kmutex_lock cfg maddr { k with curr := t })).in_irq
        = false by rw [hl]; exact hirq)
      (show (Outcome.kernel (kmutex_lock cfg maddr { k with curr := t })).m.owner_task ≠ 0 by
        rw [hl]; exact ho)
      (show (Outcome.kernel (kmutex_lock cfg maddr { k with curr := t })).m.owner_task ∉ ts by
        rw [hl]; exact hots)
      (show cfg.debug = true →
          is_recursive cfg (Outcome.kernel (kmutex_lock cfg maddr { k with curr := t })).m.flags
            = true →
          0 < (Outcome.kernel (kmutex_lock cfg maddr { k with curr := t })).m.lock_count by
        rw [hl]; exact hlc)
    rw [hl] at h1 h2 h3 h4 h5 h6 h8
    simp only [Outcome.kernel] at h1 h2 h3 h4 h5 h6 h8
    refine ⟨k1, ?_, ?_, h3, h4, h5, h6, ?_, ?_⟩
    · simp only [block_all, hl]
      exact h1
    · rw [h2]
      simp
    · intro x hx
      by_cases hxs : x ∈ ts
      · exact h7 x hxs
      · have hxt : x = t := by
          rcases List.mem_cons.1 hx with e | e
          · exact e
          · exact absurd e hxs
        rw [h8 x hxs, hxt]
        simp
    · intro x hx
      have hxt : x ≠ t := fun e => hx (e ▸ List.mem_cons_self _ _)
      have hxs : x ∉ ts := fun e => hx (List.mem_cons_of_mem _ e)
      rw [h8 x hxs]
      simp [upd_apply, hxt]

/-- A chain of final releases hands the mutex to the waiters in the order of the
wait list and empties it. -/
theorem unlock_chain_spec (cfg : Build) (ts : List Nat) :
    ∀ k : Kernel, (cfg.debug = true → k.in_irq = false) →
      (is_recursive cfg k.m.flags = true → k.m.lock_count = 1) →
      k.m.wait_list = ts → ts.Nodup →
      (∀ t, t ∈ ts → (k.tasks t).state = task_state.TASK_STATE_SLEEPING) →
      ∃ k2, unlock_chain cfg ts.length k = some (ts, k2) ∧ k2.m.wait_list = [] := by
  induction ts with
  | nil =>
    intro k _ _ hwl _ _
    exact ⟨k, rfl, hwl⟩
  | cons t r ih =>
    intro k hirq hlc hwl hnd hsl
    rw [List.nodup_cons] at hnd
    have hu : kmutex_unlock cfg { k with curr := k.m.owner_task } = .ret ()
        { k with
          curr := k.m.owner_task
          tasks := upd k.tasks t task_runnable
          m := { k.m with
            owner_task := t
            lock_count := if is_recursive cfg k.m.flags then 1 else k.m.lock_count
            wait_list := r } } := by
      rw [kmutex_unlock_final cfg { k with curr := k.m.owner_task } hirq rfl hlc]
      rw [kmutex_unlock_release_handoff cfg _ t r]
      · by_cases hr : is_recursive cfg k.m.flags = true <;> simp [hr, task_runnable]
      · exact hwl
      · exact fun _ => hsl t (List.mem_cons_self _ _)
    obtain ⟨k2, h1, h2⟩ := ih
      { k with
          curr := k.m.owner_task
          tasks := upd k.tasks t task_runnable
          m := { k.m with
            owner_task := t
            lock_count := if is_recursive cfg k.m.flags then 1 else k.m.lock_count
            wait_list := r } }
      hirq (fun hr => by simp [hr]) rfl hnd.2
      (fun x hx => by
        have hxt : x ≠ t := fun e => hnd.1 (e ▸ hx)
        simp only [upd_apply, hxt, if_false]
        exact hsl x (List.mem_cons_of_mem _ hx))
    refine ⟨k2, ?_, h2⟩
    simp only [List.length_cons, unlock_chain, hu, h1]

/-- C2 (FIFO wakeup).  A mutex is held and nobody waits.  The distinct tasks
`ts`, none of them the owner, call `kmutex_lock` in that order: all block, and
the wait list is `ts`.  The next `ts.length` releasing calls of
`kmutex_unlock`, each by the owner of that moment, set `owner_task` to the
tasks of `ts` in exactly that order, and leave the wait list empty. -/
theorem fifo_wakeup (cfg : Build) (maddr : Nat) (k : Kernel) (ts : List Nat)
    (hirq : cfg.debug = true → k.in_irq = false)
    (ho : k.m.owner_task ≠ 0) (hwl : k.m.wait_list = [])
    (hlc : is_recursive cfg k.m.flags = true → k.m.lock_count = 1)
    (hnd : ts.Nodup) (hown : k.m.owner_task ∉ ts) :
    ∃ k1 k2, block_all cfg maddr k ts = some k1 ∧ k1.m.wait_list = ts ∧
      unlock_chain cfg ts.length k1 = some (ts, k2) ∧ k2.m.wait_list = [] := by
  obtain ⟨k1, h1, h2, _, h4, h5, h6, h7, _⟩ := block_all_spec cfg maddr ts k hirq ho hown
    (fun _ hr => by rw [hlc hr]; exact Nat.one_pos)
  rw [hwl, List.nil_append] at h2
  obtain ⟨k2, h8, h9⟩ := unlock_chain_spec cfg ts k1 (by rw [h6]; exact hirq)
    (by rw [h4, h5]; exact hlc) h2 hnd h7
  exact ⟨k1, k2, h1, h2, h8, h9⟩

/-- Witness of C2: task 1 holds a recursive mutex once; tasks 2, 3 and 4 block in
that order. -/
theorem fifo_wakeup_witness :
    ∃ k1 k2,
      block_all cfg_debug 100
        (kernel_with { flags := 1, lock_count := 1, owner_task := 1, wait_list := [] } 1)
        [2, 3, 4] = some k1 ∧
      k1.m.wait_list = [2, 3, 4] ∧
      unlock_chain cfg_debug 3 k1 = some ([2, 3, 4], k2) ∧ k2.m.wait_list = [] :=
  fifo_wakeup cfg_debug 100
    (kernel_with { flags := 1, lock_count := 1, owner_task := 1, wait_list := [] } 1)
    [2, 3, 4] (fun _ => rfl) (by decide) rfl (fun _ => rfl) (by decide) (by decide)

/-- A final release with waiters, in one equation. -/
theorem kmutex_unlock_handoff (cfg : Build) (k : Kernel) (t : Nat) (r : List Nat)
    (hirq : cfg.debug = true → k.in_irq = false)
    (hown : k.m.owner_task = k.curr)
    (hrel : is_recursive cfg k.m.flags = true → k.m.lock_count = 1)
    (hwl : k.m.wait_list = t :: r)
    (hsl : cfg.debug = true → (k.tasks t).state = task_state.TASK_STATE_SLEEPING) :
    kmutex_unlock cfg k = .ret ()
      { k with
        tasks := upd k.tasks t
          { state := task_state.TASK_STATE_RUNNABLE,
            wobj := { type := wo_type.WOBJ_NONE, ptr := 0 } }
        m := { k.m with
          owner_task := t
          lock_count := if is_recursive cfg k.m.flags then 1 else k.m.lock_count
          wait_list := r } } := by
  rw [kmutex_unlock_final cfg k hirq hown hrel]
  rw [kmutex_unlock_release_handoff cfg _ t r]
  · by_cases hr : is_recursive cfg k.m.flags = true <;> simp [hr]
  · exact hwl
  · exact hsl

/-- C3 (direct handoff).  The calling task owns the mutex, the wait list is
`T :: R` (each wait-object linked once, its task SLEEPING), and the call is a
releasing one (non-recursive mutex, or recursive with `lock_count = 1`).  Then
`kmutex_unlock` returns with `owner_task = T`, `wait_list = R`, `T` RUNNABLE
with its wait-object cleared, every task of `R` still SLEEPING, `flags`
unchanged, and `lock_count = 1` for a recursive mutex, unchanged otherwise. -/
theorem direct_handoff (cfg : Build) (k : Kernel) (T : Nat) (R : List Nat)
    (hirq : cfg.debug = true → k.in_irq = false)
    (hown : k.m.owner_task = k.curr)
    (hwl : k.m.wait_list = T :: R)
    (hrel : is_recursive cfg k.m.flags = true → k.m.lock_count = 1)
    (hsl : ∀ t, t ∈ T :: R → (k.tasks t).state = task_state.TASK_STATE_SLEEPING)
    (hnd : T ∉ R) :
    ∃ k', kmutex_unlock cfg k = .ret () k' ∧
      k'.m.owner_task = T ∧ k'.m.wait_list = R ∧
      (k'.tasks T).state = task_state.TASK_STATE_RUNNABLE ∧
      (k'.tasks T).wobj = { type := wo_type.WOBJ_NONE, ptr := 0 } ∧
      (∀ r, r ∈ R → (k'.tasks r).state = task_state.TASK_STATE_SLEEPING) ∧
      k'.m.flags = k.m.flags ∧
      k'.m.lock_count = (if is_recursive cfg k.m.flags then 1 else k.m.lock_count) := by
  refine ⟨_, kmutex_unlock_handoff cfg k T R hirq hown hrel hwl
    (fun _ => hsl T (List.mem_cons_self _ _)), rfl, rfl, by simp, by simp, ?_, rfl, rfl⟩
  intro r hr
  have hrt : r ≠ T := fun e => hnd (e ▸ hr)
  simp only [upd_apply, hrt, if_false]
  exact hsl r (List.mem_cons_of_mem _ hr)

/-- Witness of C3 (scenario S2 of the specification): A = 1 holds the mutex, B = 2
and C = 3 sleep in the wait list, A unlocks. -/
theorem direct_handoff_witness :
    ∃ k', kmutex_unlock cfg_debug
        { sys_contended.k with
          curr := 1
          m := { sys_contended.k.m with wait_list := [2, 3] }
          tasks := upd sys_contended.k.tasks 3 (task_waiting 100) } = .ret () k' ∧
      k'.m.owner_task = 2 ∧ k'.m.wait_list = [3] ∧
      (k'.tasks 2).state = task_state.TASK_STATE_RUNNABLE ∧
      (k'.tasks 2).wobj = { type := wo_type.WOBJ_NONE, ptr := 0 } ∧
      (∀ r, r ∈ [3] → (k'.tasks r).state = task_state.TASK_STATE_SLEEPING) ∧
      k'.m.flags = 0 ∧
      k'.m.lock_count = (if is_recursive cfg_debug 0 then 1 else 0) :=
  direct_handoff cfg_debug
    { sys_contended.k with
      curr := 1
      m := { sys_contended.k.m with wait_list := [2, 3] }
      tasks := upd sys_contended.k.tasks 3 (task_waiting 100) }
    2 [3] (fun _ => rfl) rfl rfl (fun h => by simp [is_recursive, cfg_debug, sys_contended] at h)
    (by decide) (by decide)

/-- C4 (result of `kmutex_trylock`).  Outside an interrupt handler the call
returns, and it returns `true` exactly when `owner_task` is `NULL`, or the
mutex is recursive and `owner_task` is the caller.  On success with no previous
owner the caller becomes `owner_task`; on a successful re-entry `owner_task`
is unchanged and `lock_count` grows by exactly 1. -/
theorem trylock_result (cfg : Build) (k : Kernel)
    (hirq : cfg.debug = true → k.in_irq = false) :
    ∃ b k', kmutex_trylock cfg k = .ret b k' ∧
      (b = true ↔ (k.m.owner_task = 0 ∨
        (is_recursive cfg k.m.flags = true ∧ k.m.owner_task = k.curr))) ∧
      (b = true → k.m.owner_task = 0 → k'.m.owner_task = k.curr) ∧
      (b = true → k.m.owner_task ≠ 0 →
        k'.m.owner_task = k.m.owner_task ∧ k'.m.lock_count = k.m.lock_count + 1) := by
  by_cases ho : k.m.owner_task = 0
  · exact ⟨true, _, kmutex_trylock_free cfg k hirq ho, by simp [ho], fun _ _ => rfl,
      fun _ h => absurd ho h⟩
  by_cases hre : is_recursive cfg k.m.flags = true ∧ k.m.owner_task = k.curr
  · exact ⟨true, _, kmutex_trylock_reenter cfg k hirq ho hre.1 hre.2, by simp [hre],
      fun _ h => absurd h ho, fun _ _ => ⟨rfl, rfl⟩⟩
  · exact ⟨false, _, kmutex_trylock_fail cfg k hirq ho (fun hr hc => hre ⟨hr, hc⟩),
      by simp [ho, hre], fun h => by simp at h, fun h => by simp at h⟩

/-- Witness of C4 (scenario S6): A = 1 holds a recursive mutex once and calls
`kmutex_trylock`. -/
theorem trylock_result_witness :
    ∃ b k', kmutex_trylock cfg_debug
        (kernel_with { flags := 1, lock_count := 1, owner_task := 1, wait_list := [] } 1)
        = .ret b k' ∧
      (b = true ↔ ((1 : Nat) = 0 ∨ (is_recursive cfg_debug 1 = true ∧ (1 : Nat) = 1))) ∧
      (b = true → (1 : Nat) = 0 → k'.m.owner_task = 1) ∧
      (b = true → (1 : Nat) ≠ 0 → k'.m.owner_task = 1 ∧ k'.m.lock_count = 1 + 1) :=
  trylock_result cfg_debug
    (kernel_with { flags := 1, lock_count := 1, owner_task := 1, wait_list := [] } 1)
    (fun _ => rfl)

/-- C5 (purity of `kmutex_trylock`).  Whatever the outcome, the call is never
suspended and the wait list and every task (scheduling state and wait-object)
are as before the call; when the call returns `false` the whole mutex record is
as before. -/
theorem trylock_purity (cfg : Build) (k : Kernel) :
    ((kmutex_trylock cfg k).value = some false → (kmutex_trylock cfg k).kernel.m = k.m) ∧
    (kmutex_trylock cfg k).kernel.m.wait_list = k.m.wait_list ∧
    (kmutex_trylock cfg k).kernel.tasks = k.tasks ∧
    (kmutex_trylock cfg k).isYielded = false := by
  obtain ⟨⟨f, lc, o, wl⟩, tasks, curr, d, irq⟩ := k
  simp only [kmutex_trylock, disable_preemption, enable_preemption, in_irq_handler,
    kmutex_is_curr_task_holding_lock]
  refine ⟨?_, ?_, ?_, ?_⟩ <;> (repeat' split) <;>
    simp_all [Outcome.value, Outcome.kernel, Outcome.isYielded]

/-- Witness of C5 (scenario S5): B = 2 calls `kmutex_trylock` on the non-recursive
mutex held by A = 1; the call returns `false` and the record is unchanged. -/
theorem trylock_purity_witness :
    (kmutex_trylock cfg_debug { sys_held.k with curr := 2 }).value = some false ∧
    (kmutex_trylock cfg_debug { sys_held.k with curr := 2 }).kernel.m = sys_held.k.m :=
  ⟨rfl, (trylock_purity cfg_debug { sys_held.k with curr := 2 }).1 rfl⟩

/-- C8 as stated fails: in a debug build, on a recursive mutex owned by task 1
whose `lock_count` is 0, `kmutex_lock` called by task 2 halts at
`ASSERT(m->lock_count > 0)`; it does not yield, and the caller is neither
appended to the wait list nor put to sleep. -/
theorem lock_contention_counterexample :
    (kernel_uncounted 2).m.owner_task ≠ 0 ∧
    (kernel_uncounted 2).m.owner_task ≠ (kernel_uncounted 2).curr ∧
    is_recursive cfg_debug (kernel_uncounted 2).m.flags = true ∧
    (kmutex_lock cfg_debug 100 (kernel_uncounted 2)).isYielded = false ∧
    (kmutex_lock cfg_debug 100 (kernel_uncounted 2)).isAbort = true ∧
    (kmutex_lock cfg_debug 100 (kernel_uncounted 2)).kernel.m.wait_list = [] ∧
    ((kmutex_lock cfg_debug 100 (kernel_uncounted 2)).kernel.tasks 2).state
      = task_state.TASK_STATE_RUNNABLE := by
  decide

/-- C8 (contention path of `kmutex_lock`), amended.  The mutex is owned by a task
other than the caller and, if the mutex is recursive and the build is a debug
build, `lock_count > 0`.  Then `kmutex_lock` ends suspended in
`kernel_yield()`, not returned: at that moment `owner_task`, `lock_count` and
`flags` are unchanged, the caller is appended at the tail of the wait list, its
wait-object is `(WOBJ_KMUTEX, m)`, it is SLEEPING, every other task is
untouched and the preemption gate is back at its depth of before the call. -/
theorem lock_contention (cfg : Build) (maddr : Nat) (k : Kernel)
    (hirq : cfg.debug = true → k.in_irq = false)
    (ho : k.m.owner_task ≠ 0) (hoc : k.m.owner_task ≠ k.curr)
    (hlc : cfg.debug = true → is_recursive cfg k.m.flags = true → 0 < k.m.lock_count) :
    ∃ k', kmutex_lock cfg maddr k = .yielded k' ∧
      k'.m.owner_task = k.m.owner_task ∧ k'.m.lock_count = k.m.lock_count ∧
      k'.m.flags = k.m.flags ∧
      k'.m.wait_list = k.m.wait_list ++ [k.curr] ∧
      (k'.tasks k.curr).wobj = { type := wo_type.WOBJ_KMUTEX, ptr := maddr } ∧
      (k'.tasks k.curr).state = task_state.TASK_STATE_SLEEPING ∧
      (∀ t, t ≠ k.curr → k'.tasks t = k.tasks t) ∧
      k'.disable_preemption_count = k.disable_preemption_count :=
  ⟨_, kmutex_lock_contend cfg maddr k hirq ho hoc hlc, rfl, rfl, rfl, rfl, by simp, by simp,
    fun t ht => by simp [upd_apply, ht], rfl⟩

/-- Witness of C8, on both kinds of mutex: task 3 calls `kmutex_lock` on the
non-recursive mutex held by task 1 while task 2 already waits; task 5 calls
`kmutex_lock` on the recursive mutex owned by task 2 (`lock_count = 1`) while
task 3 already waits. -/
theorem lock_contention_witness :
    (∃ k', kmutex_lock cfg_debug 100 { sys_contended.k with curr := 3 } = .yielded k' ∧
      k'.m.owner_task = 1 ∧ k'.m.lock_count = 0 ∧ k'.m.flags = 0 ∧
      k'.m.wait_list = [2] ++ [3] ∧
      (k'.tasks 3).wobj = { type := wo_type.WOBJ_KMUTEX, ptr := 100 } ∧
      (k'.tasks 3).state = task_state.TASK_STATE_SLEEPING ∧
      (∀ t, t ≠ 3 → k'.tasks t = sys_contended.k.tasks t) ∧
      k'.disable_preemption_count = 0) ∧
    (is_recursive cfg_debug sys_handed_off.k.m.flags = true ∧
      ∃ k', kmutex_lock cfg_debug 100 { sys_handed_off.k with curr := 5 } = .yielded k' ∧
        k'.m.owner_task = 2 ∧ k'.m.lock_count = 1 ∧ k'.m.flags = 1 ∧
        k'.m.wait_list = [3] ++ [5] ∧
        (k'.tasks 5).wobj = { type := wo_type.WOBJ_KMUTEX, ptr := 100 } ∧
        (k'.tasks 5).state = task_state.TASK_STATE_SLEEPING ∧
        (∀ t, t ≠ 5 → k'.tasks t = sys_handed_off.k.tasks t) ∧
        k'.disable_preemption_count = 0) :=
  ⟨lock_contention cfg_debug 100 { sys_contended.k with curr := 3 } (fun _ => rfl)
      (by decide) (by decide)
      (fun _ h => by simp [is_recursive, cfg_debug, sys_contended] at h),
    rfl,
    lock_contention cfg_debug 100 { sys_handed_off.k with curr := 5 } (fun _ => rfl)
      (by decide) (by decide) (fun _ _ => by decide)⟩

theorem locks_cons_lock (cs : List Call) : locks (Call.lock :: cs) = locks cs + 1 := by
  simp [locks]

theorem locks_cons_unlock (cs : List Call) : locks (Call.unlock :: cs) = locks cs := by
  simp [locks]

theorem unlocks_cons_lock (cs : List Call) : unlocks (Call.lock :: cs) = unlocks cs := by
  simp [unlocks]

theorem unlocks_cons_unlock (cs : List Call) :
    unlocks (Call.unlock :: cs) = unlocks cs + 1 := by
  simp [unlocks]

/-- A single task working on a recursive mutex nobody waits for: as long as no
prefix of its calls releases more than it holds, no call blocks or aborts and
`lock_count` follows the number of locks minus the number of unlocks. -/
theorem run_calls_recursive (cfg : Build) (maddr c : Nat) (hc : c ≠ 0) (cs : List Call) :
    ∀ k : Kernel, (cfg.debug = true → k.in_irq = false) →
      is_recursive cfg k.m.flags = true → k.m.wait_list = [] →
      (k.m.lock_count = 0 → k.m.owner_task = 0) →
      (0 < k.m.lock_count → k.m.owner_task = c) →
      (∀ n, n ≤ cs.length → unlocks (cs.take n) ≤ k.m.lock_count + locks (cs.take n)) →
      ∃ k', run_calls cfg maddr c k cs = some k' ∧
        k'.m.lock_count + unlocks cs = k.m.lock_count + locks cs ∧
        (k'.m.lock_count = 0 → k'.m.owner_task = 0) ∧
        (0 < k'.m.lock_count → k'.m.owner_task = c) ∧
        k'.m.wait_list = [] ∧ k'.m.flags = k.m.flags := by
  induction cs with
  | nil =>
    intro k _ _ hwl h0 h1 _
    exact ⟨k, rfl, rfl, h0, h1, hwl, rfl⟩
  | cons a cs ih =>
    intro k hirq hr hwl h0 h1 hpre
    have hpre' : ∀ n, n ≤ cs.length →
        unlocks ((a :: cs).take (n + 1)) ≤ k.m.lock_count + locks ((a :: cs).take (n + 1)) :=
      fun n hn => hpre (n + 1) (by simpa using hn)
    cases a with
    | lock =>
      simp only [List.take_succ_cons, locks_cons_lock, unlocks_cons_lock] at hpre'
      have hl : kmutex_lock cfg maddr { k with curr := c } = .ret ()
          { k with curr := c, m := { k.m with owner_task := c, lock_count := k.m.lock_count + 1 } } := by
        by_cases hz : k.m.lock_count = 0
        · rw [kmutex_lock_free cfg maddr { k with curr := c } hirq (h0 hz) (fun _ _ => hz)]
          simp [hr]
        · have ho : k.m.owner_task = c := h1 (by omega)
          rw [kmutex_lock_reenter cfg maddr { k with curr := c } hirq (by rw [ho]; exact hc) hr ho
            (fun _ => Nat.pos_of_ne_zero hz)]
          simp [ho]
      obtain ⟨k', e1, e2, e3, e4, e5, e6⟩ := ih
        { k with curr := c, m := { k.m with owner_task := c, lock_count := k.m.lock_count + 1 } }
        hirq hr hwl (fun h => by simp at h) (fun _ => rfl)
        (fun n hn => by have := hpre' n hn; simp only; omega)
      refine ⟨k', ?_, ?_, e3, e4, e5, e6⟩
      · simp only [run_calls, hl]
        exact e1
      · simp only [locks_cons_lock, unlocks_cons_lock] at e2 ⊢
        omega
    | unlock =>
      have hpos : 0 < k.m.lock_count := by
        have := hpre 1 (by simp)
        simp [unlocks, locks] at this
        omega
      have ho := h1 hpos
      simp only [List.take_succ_cons, locks_cons_unlock, unlocks_cons_unlock] at hpre'
      have hu : kmutex_unlock cfg { k with curr := c } = .ret ()
          { k with
            curr := c
            m := { k.m with
              owner_task := if k.m.lock_count = 1 then 0 else c
              lock_count := k.m.lock_count - 1 } } := by
        by_cases h2 : 2 ≤ k.m.lock_count
        · rw [kmutex_unlock_nested cfg { k with curr := c } hirq ho hr h2]
          have : k.m.lock_count ≠ 1 := by omega
          simp [this, ho]
        · have h1' : k.m.lock_count = 1 := by omega
          rw [kmutex_unlock_final cfg { k with curr := c } hirq ho (fun _ => h1')]
          rw [kmutex_unlock_release_empty]
          · simp [hr, h1']
          · exact hwl
      obtain ⟨k', e1, e2, e3, e4, e5, e6⟩ := ih
        { k with
            curr := c
            m := { k.m with
              owner_task := if k.m.lock_count = 1 then 0 else c
              lock_count := k.m.lock_count - 1 } }
        hirq hr hwl
        (fun h => by
          have : k.m.lock_count = 1 := by simp only at h; omega
          simp [this])
        (fun h => by
          have : k.m.lock_count ≠ 1 := by simp only at h; omega
          simp [this])
        (fun n hn => by have := hpre' n hn; simp only; omega)
      refine ⟨k', ?_, ?_, e3, e4, e5, e6⟩
      · simp only [run_calls, hu]
        exact e1
      · simp only [locks_cons_unlock, unlocks_cons_unlock] at e2 ⊢
        omega

/-- C6 as stated fails for a non-recursive mutex: after the prefix `lock` of
`lock; unlock` on an idle non-recursive mutex, `lock_count` is still 0 and not
locks minus unlocks = 1. -/
theorem recursive_accounting_counterexample :
    is_recursive cfg_debug (sys_fresh 0).k.m.flags = false ∧
    ¬ ∃ k', run_calls cfg_debug 100 1 (sys_fresh 0).k [Call.lock] = some k' ∧
      k'.m.lock_count = locks [Call.lock] - unlocks [Call.lock] := by
  refine ⟨rfl, ?_⟩
  rintro ⟨k', h1, h2⟩
  have h3 : (run_calls cfg_debug 100 1 (sys_fresh 0).k [Call.lock]).map
      (fun k => k.m.lock_count) = some 0 := rfl
  rw [h1] at h3
  simp only [Option.map_some', Option.some.injEq] at h3
  rw [h3] at h2
  simp [locks, unlocks] at h2

/-- C6 (recursive accounting), amended.  One task `c` works on an idle mutex
(owner `NULL`, `lock_count` 0, empty wait list).  If the mutex is recursive,
then for every balanced sequence of `kmutex_lock` / `kmutex_unlock` calls no
call blocks or trips an assertion, after each prefix `lock_count` is the number
of locks minus the number of unlocks, and at the end `owner_task` is `NULL` and
`lock_count` is 0.  If it is not recursive, then in `lock; unlock` no call
blocks or trips an assertion, `lock_count` stays 0 throughout, `owner_task` is
`c` after the lock and `NULL` after the unlock. -/
theorem recursive_accounting (cfg : Build) (maddr c : Nat) (k : Kernel)
    (hirq : cfg.debug = true → k.in_irq = false) (hc : c ≠ 0)
    (ho : k.m.owner_task = 0) (hlc : k.m.lock_count = 0) (hwl : k.m.wait_list = []) :
    (is_recursive cfg k.m.flags = true → ∀ cs, balanced cs →
      (∀ n, n ≤ cs.length → ∃ k', run_calls cfg maddr c k (cs.take n) = some k' ∧
        k'.m.lock_count = locks (cs.take n) - unlocks (cs.take n)) ∧
      (∃ k', run_calls cfg maddr c k cs = some k' ∧
        k'.m.owner_task = 0 ∧ k'.m.lock_count = 0)) ∧
    (is_recursive cfg k.m.flags = false →
      ∃ k1 k2, run_calls cfg maddr c k [Call.lock] = some k1 ∧
        k1.m.owner_task = c ∧ k1.m.lock_count = 0 ∧
        run_calls cfg maddr c k [Call.lock, Call.unlock] = some k2 ∧
        k2.m.owner_task = 0 ∧ k2.m.lock_count = 0) := by
  constructor
  · intro hr cs hbal
    have hprefix : ∀ n, n ≤ cs.length →
        ∃ k', run_calls cfg maddr c k (cs.take n) = some k' ∧
          k'.m.lock_count + unlocks (cs.take n) = locks (cs.take n) ∧
          (k'.m.lock_count = 0 → k'.m.owner_task = 0) := by
      intro n hn
      obtain ⟨k', e1, e2, e3, _, _, _⟩ := run_calls_recursive cfg maddr c hc (cs.take n) k
        hirq hr hwl (fun _ => ho) (fun h => by omega)
        (fun m hm => by
          have hmn : m ≤ n := by
            have := List.length_take_le n cs
            omega
          rw [List.take_take, Nat.min_eq_left hmn, hlc, Nat.zero_add]
          exact hbal.2 m (by omega))
      exact ⟨k', e1, by omega, e3⟩
    refine ⟨fun n hn => ?_, ?_⟩
    · obtain ⟨k', e1, e2, _⟩ := hprefix n hn
      exact ⟨k', e1, by omega⟩
    · obtain ⟨k', e1, e2, e3⟩ := hprefix cs.length (Nat.le_refl _)
      rw [List.take_length] at e1 e2
      have hz : k'.m.lock_count = 0 := by
        have := hbal.1
        omega
      exact ⟨k', e1, e3 hz, hz⟩
  · intro hr
    have hl : kmutex_lock cfg maddr { k with curr := c } = .ret ()
        { k with curr := c, m := { k.m with owner_task := c } } := by
      rw [kmutex_lock_free cfg maddr { k with curr := c } hirq ho
        (fun _ h => by simp [hr] at h)]
      simp [hr]
    have hu : kmutex_unlock cfg { k with curr := c, m := { k.m with owner_task := c } }
        = .ret () { k with curr := c, m := { k.m with owner_task := 0 } } := by
      rw [kmutex_unlock_final cfg { k with curr := c, m := { k.m with owner_task := c } }
        hirq rfl (fun h => by simp [hr] at h)]
      rw [kmutex_unlock_release_empty]
      · simp [hr]
      · exact hwl
    refine ⟨{ k with curr := c, m := { k.m with owner_task := c } },
      { k with curr := c, m := { k.m with owner_task := 0 } }, ?_, rfl, hlc, ?_, rfl, hlc⟩
    · simp only [run_calls, hl]
    · simp only [run_calls, hl, hu]

/-- Witness of C6 (scenario S3 extended): task 1 runs `lock; lock; unlock; lock;
unlock; unlock` on an idle recursive mutex. -/
theorem recursive_accounting_witness :
    ∃ k', run_calls cfg_debug 100 1 (sys_fresh 1).k
        [Call.lock, Call.lock, Call.unlock, Call.lock, Call.unlock, Call.unlock] = some k' ∧
      k'.m.owner_task = 0 ∧ k'.m.lock_count = 0 :=
  ((recursive_accounting cfg_debug 100 1 (sys_fresh 1).k (fun _ => rfl) (by decide)
      rfl rfl rfl).1 rfl
    [Call.lock, Call.lock, Call.unlock, Call.lock, Call.unlock, Call.unlock]
    (by unfold balanced; decide)).2

/-- C7 as stated fails: a non-recursive mutex held by task 1 with no waiter is
reachable, its `lock_count` is 0 and its wait list is empty, yet `owner_task`
is not `NULL`. -/
theorem owner_none_iff_counterexample :
    Reachable cfg_debug 100 sys_held ∧
    ¬ (sys_held.k.m.owner_task = 0 ↔
        (sys_held.k.m.lock_count = 0 ∧ sys_held.k.m.wait_list = [])) :=
  ⟨reachable_sys_held, by decide⟩

/-- C7 (data-model invariant 1), amended.  In every reachable state: if
`owner_task` is `NULL` then `lock_count` is 0 and the wait list is empty; for a
recursive mutex the converse holds as well; for a non-recursive mutex
`lock_count` is 0 in every reachable state, held or not. -/
theorem owner_none_invariant (cfg : Build) (maddr : Nat) (s : Sys)
    (h : Reachable cfg maddr s) :
    (s.k.m.owner_task = 0 → s.k.m.lock_count = 0 ∧ s.k.m.wait_list = []) ∧
    (is_recursive cfg s.k.m.flags = true →
      (s.k.m.owner_task = 0 ↔ (s.k.m.lock_count = 0 ∧ s.k.m.wait_list = []))) ∧
    (is_recursive cfg s.k.m.flags = false → s.k.m.lock_count = 0) := by
  have hinv := reachable_inv h
  have h1 : s.k.m.owner_task = 0 → s.k.m.lock_count = 0 ∧ s.k.m.wait_list = [] :=
    fun ho => ⟨(hinv.free ho).2, (hinv.free ho).1⟩
  refine ⟨h1, fun hr => ⟨h1, fun hz => ?_⟩, hinv.nonrec_count⟩
  by_contra ho
  have := inv_owner_count hinv ho hr
  omega

/-- Witness of C7 on a recursive mutex handed to task 2 while task 3 waits. -/
theorem owner_none_invariant_witness :
    Reachable cfg_debug 100 sys_handed_off ∧
    ((sys_handed_off.k.m.owner_task = 0 →
        sys_handed_off.k.m.lock_count = 0 ∧ sys_handed_off.k.m.wait_list = []) ∧
      (is_recursive cfg_debug sys_handed_off.k.m.flags = true →
        (sys_handed_off.k.m.owner_task = 0 ↔
          (sys_handed_off.k.m.lock_count = 0 ∧ sys_handed_off.k.m.wait_list = []))) ∧
      (is_recursive cfg_debug sys_handed_off.k.m.flags = false →
        sys_handed_off.k.m.lock_count = 0)) :=
  ⟨reachable_sys_handed_off,
    owner_none_invariant cfg_debug 100 sys_handed_off reachable_sys_handed_off⟩

/-- C9 (post-wakeup guarantee).  In every reachable state, a task suspended in
the `kernel_yield()` of `kmutex_lock` that is no longer SLEEPING (it was woken
by the handoff of `kmutex_unlock`) is `owner_task`, `lock_count` is 1 if the
mutex is recursive, and the code after the yield returns without tripping an
assertion. -/
theorem post_wakeup (cfg : Build) (maddr : Nat) (s : Sys) (h : Reachable cfg maddr s)
    (c : Nat) (hb : s.blocked c = true)
    (hns : (s.k.tasks c).state ≠ task_state.TASK_STATE_SLEEPING) :
    s.k.m.owner_task = c ∧
    (is_recursive cfg s.k.m.flags = true → s.k.m.lock_count = 1) ∧
    kmutex_lock_woken cfg { s.k with curr := c } = .ret () { s.k with curr := c } := by
  obtain ⟨hown, hcnt⟩ := (reachable_inv h).woken c hb hns
  refine ⟨hown, hcnt, ?_⟩
  by_cases hr : is_recursive cfg s.k.m.flags = true
  · simp [kmutex_lock_woken, kmutex_is_curr_task_holding_lock, hown, hr, hcnt hr]
  · simp [kmutex_lock_woken, kmutex_is_curr_task_holding_lock, hown, hr]

/-- Witness of C9: task 2 was handed the recursive mutex by task 1; before it
resumes, task 3 called `kmutex_lock` and task 4 called `kmutex_trylock`. -/
theorem post_wakeup_witness :
    Reachable cfg_debug 100 sys_handed_off ∧ sys_handed_off.blocked 2 = true ∧
    (sys_handed_off.k.m.owner_task = 2 ∧
      (is_recursive cfg_debug sys_handed_off.k.m.flags = true →
        sys_handed_off.k.m.lock_count = 1) ∧
      kmutex_lock_woken cfg_debug { sys_handed_off.k with curr := 2 }
        = .ret () { sys_handed_off.k with curr := 2 }) :=
  ⟨reachable_sys_handed_off, rfl,
    post_wakeup cfg_debug 100 sys_handed_off reachable_sys_handed_off 2 rfl (by decide)⟩

/-- C10 (gate balance).  With the preemption gate a counter, every operation
that does not abort leaves the depth at its value `d` of before the call:
`kmutex_init`, `kmutex_destroy`, `kmutex_lock` (both when it returns and, on the
contention path, at the moment `kernel_yield()` is called), the code of
`kmutex_lock` after the yield, `kmutex_trylock`, `kmutex_unlock` and
`kmutex_is_curr_task_holding_lock`. -/
theorem gate_balance (cfg : Build) (maddr flags : Nat) (k : Kernel) :
    gate_depth_is k.disable_preemption_count (kmutex_init cfg flags k) ∧
    gate_depth_is k.disable_preemption_count (kmutex_destroy k) ∧
    gate_depth_is k.disable_preemption_count (kmutex_lock cfg maddr k) ∧
    gate_depth_is k.disable_preemption_count (kmutex_lock_woken cfg k) ∧
    gate_depth_is k.disable_preemption_count (kmutex_trylock cfg k) ∧
    gate_depth_is k.disable_preemption_count (kmutex_unlock cfg k) ∧
    gate_depth_is k.disable_preemption_count (kmutex_is_curr_task_holding_lock_call k) := by
  obtain ⟨⟨f, lc, o, wl⟩, tasks, curr, d, irq⟩ := k
  refine ⟨?_, ?_, ?_, ?_, ?_, ?_, ?_⟩
  · simp only [kmutex_init]
    split <;> simp [gate_depth_is]
  · simp [kmutex_destroy, gate_depth_is]
  · simp only [kmutex_lock, disable_preemption, enable_preemption, task_set_wait_obj]
    repeat' split
    all_goals simp [gate_depth_is]
  · simp only [kmutex_lock_woken]
    repeat' split
    all_goals simp [gate_depth_is]
  · simp only [kmutex_trylock, disable_preemption, enable_preemption]
    repeat' split
    all_goals simp [gate_depth_is]
  · simp only [kmutex_unlock, kmutex_unlock_release, disable_preemption, enable_preemption,
      task_reset_wait_obj]
    repeat' split
    all_goals simp [gate_depth_is]
  · simp [kmutex_is_curr_task_holding_lock_call, gate_depth_is]

/-- C12 (nested release).  On a recursive mutex owned by the caller with
`lock_count = n ≥ 2`, `kmutex_unlock` returns with `owner_task` unchanged,
`lock_count = n - 1`, and the wait list, `flags` and every task unchanged: no
waiter is woken, whatever the wait list holds. -/
theorem nested_release (cfg : Build) (k : Kernel)
    (hirq : cfg.debug = true → k.in_irq = false)
    (hc : k.m.owner_task = k.curr)
    (hr : is_recursive cfg k.m.flags = true) (hn : 2 ≤ k.m.lock_count) :
    ∃ k', kmutex_unlock cfg k = .ret () k' ∧ k'.m.owner_task = k.m.owner_task ∧
      k'.m.lock_count = k.m.lock_count - 1 ∧ k'.m.wait_list = k.m.wait_list ∧
      k'.m.flags = k.m.flags ∧ k'.tasks = k.tasks :=
  ⟨_, kmutex_unlock_nested cfg k hirq hc hr hn, rfl, rfl, rfl, rfl, rfl⟩

/-- Witness of C12 (scenario S4): A = 1 holds the recursive mutex twice, B = 2 is
blocked; A unlocks once. -/
theorem nested_release_witness :
    ∃ k', kmutex_unlock cfg_debug
        { m := { flags := 1, lock_count := 2, owner_task := 1, wait_list := [2] },
          tasks := upd (fun _ => task_runnable) 2 (task_waiting 100),
          curr := 1, disable_preemption_count := 0, in_irq := false } = .ret () k' ∧
      k'.m.owner_task = 1 ∧ k'.m.lock_count = 2 - 1 ∧ k'.m.wait_list = [2] ∧
      k'.m.flags = 1 ∧ k'.tasks = upd (fun _ => task_runnable) 2 (task_waiting 100) :=
  nested_release cfg_debug
    { m := { flags := 1, lock_count := 2, owner_task := 1, wait_list := [2] },
      tasks := upd (fun _ => task_runnable) 2 (task_waiting 100),
      curr := 1, disable_preemption_count := 0, in_irq := false }
    (fun _ => rfl) rfl rfl (by decide)

/-- In a state satisfying the invariant, `kmutex_lock` by a task that is not a
non-recursive self-locker trips no assertion. -/
theorem inv_lock_no_abort {cfg : Build} {maddr : Nat} {s : Sys} (h : Inv cfg maddr s)
    (c : Nat) (hirq : cfg.debug = true → s.k.in_irq = false)
    (hc : is_recursive cfg s.k.m.flags = true ∨ s.k.m.owner_task ≠ c) :
    (kmutex_lock cfg maddr { s.k with curr := c }).isAbort = false := by
  by_cases ho : s.k.m.owner_task = 0
  · rw [kmutex_lock_free cfg maddr { s.k with curr := c } hirq ho
      (fun _ _ => (h.free ho).2)]
    rfl
  by_cases hre : is_recursive cfg s.k.m.flags = true ∧ s.k.m.owner_task = c
  · rw [kmutex_lock_reenter cfg maddr { s.k with curr := c } hirq ho hre.1 hre.2
      (fun _ => inv_owner_count h ho hre.1)]
    rfl
  · have hoc : s.k.m.owner_task ≠ c := by
      intro hoc
      rcases hc with hr | hne
      · exact hre ⟨hr, hoc⟩
      · exact hne hoc
    rw [kmutex_lock_contend cfg maddr { s.k with curr := c } hirq ho hoc
      (fun _ hr => inv_owner_count h ho hr)]
    rfl

/-- In a state satisfying the invariant, `kmutex_unlock` by the owner trips no
assertion. -/
theorem inv_unlock_no_abort {cfg : Build} {maddr : Nat} {s : Sys} (h : Inv cfg maddr s)
    (c : Nat) (hirq : cfg.debug = true → s.k.in_irq = false)
    (ho : s.k.m.owner_task = c) (hc0 : c ≠ 0) :
    (kmutex_unlock cfg { s.k with curr := c }).isAbort = false := by
  have ho0 : s.k.m.owner_task ≠ 0 := by rw [ho]; exact hc0
  by_cases hn : is_recursive cfg s.k.m.flags = true ∧ 2 ≤ s.k.m.lock_count
  · rw [kmutex_unlock_nested cfg { s.k with curr := c } hirq ho hn.1 hn.2]
    rfl
  have hlc : is_recursive cfg s.k.m.flags = true → s.k.m.lock_count = 1 := by
    intro hr
    have := inv_owner_count h ho0 hr
    have : ¬ 2 ≤ s.k.m.lock_count := fun h2 => hn ⟨hr, h2⟩
    omega
  rw [kmutex_unlock_final cfg { s.k with curr := c } hirq ho hlc]
  cases hwl : s.k.m.wait_list with
  | nil =>
    rw [kmutex_unlock_release_empty]
    · rfl
    · exact hwl
  | cons t r =>
    have htw := (h.wl_iff t).1 (by rw [hwl]; exact List.mem_cons_self t r)
    rw [kmutex_unlock_release_handoff cfg _ t r]
    · rfl
    · exact hwl
    · exact fun _ => htw.2

/-- C13 (lock_count accounting invariant).  In every reachable state: a
non-recursive mutex has `lock_count = 0`; a recursive mutex has `lock_count = 0`
exactly when `owner_task` is `NULL`, hence `lock_count ≥ 1` while it is held.
Consequently no assertion fails there: `kmutex_lock` by any task other than a
non-recursive self-locker does not abort (its checks `lock_count == 0` and
`lock_count > 0` pass), and `kmutex_unlock` by the owner does not abort (its
check `lock_count > 0` passes). -/
theorem lock_count_invariant (cfg : Build) (maddr : Nat) (s : Sys)
    (h : Reachable cfg maddr s) :
    (is_recursive cfg s.k.m.flags = false → s.k.m.lock_count = 0) ∧
    (is_recursive cfg s.k.m.flags = true →
      (s.k.m.lock_count = 0 ↔ s.k.m.owner_task = 0)) ∧
    (is_recursive cfg s.k.m.flags = true → s.k.m.owner_task ≠ 0 → 1 ≤ s.k.m.lock_count) ∧
    (∀ c, (cfg.debug = true → s.k.in_irq = false) →
      (is_recursive cfg s.k.m.flags = true ∨ s.k.m.owner_task ≠ c) →
      (kmutex_lock cfg maddr { s.k with curr := c }).isAbort = false) ∧
    (∀ c, (cfg.debug = true → s.k.in_irq = false) → s.k.m.owner_task = c → c ≠ 0 →
      (kmutex_unlock cfg { s.k with curr := c }).isAbort = false) := by
  have hinv := reachable_inv h
  refine ⟨hinv.nonrec_count, fun hr => ⟨fun hz => ?_, fun ho => (hinv.free ho).2⟩,
    fun hr ho => inv_owner_count hinv ho hr,
    fun c hirq hc => inv_lock_no_abort hinv c hirq hc,
    fun c hirq ho hc0 => inv_unlock_no_abort hinv c hirq ho hc0⟩
  by_contra ho
  have := inv_owner_count hinv ho hr
  omega

/-- Witness of C13 on a recursive mutex handed to task 2 while task 3 waits. -/
theorem lock_count_invariant_witness :
    Reachable cfg_debug 100 sys_handed_off ∧
    ((is_recursive cfg_debug sys_handed_off.k.m.flags = false →
        sys_handed_off.k.m.lock_count = 0) ∧
      (is_recursive cfg_debug sys_handed_off.k.m.flags = true →
        (sys_handed_off.k.m.lock_count = 0 ↔ sys_handed_off.k.m.owner_task = 0)) ∧
      (is_recursive cfg_debug sys_handed_off.k.m.flags = true →
        sys_handed_off.k.m.owner_task ≠ 0 → 1 ≤ sys_handed_off.k.m.lock_count) ∧
      (∀ c, (cfg_debug.debug = true → sys_handed_off.k.in_irq = false) →
        (is_recursive cfg_debug sys_handed_off.k.m.flags = true ∨
          sys_handed_off.k.m.owner_task ≠ c) →
        (kmutex_lock cfg_debug 100 { sys_handed_off.k with curr := c }).isAbort = false) ∧
      (∀ c, (cfg_debug.debug = true → sys_handed_off.k.in_irq = false) →
        sys_handed_off.k.m.owner_task = c → c ≠ 0 →
        (kmutex_unlock cfg_debug { sys_handed_off.k with curr := c }).isAbort = false)) :=
  ⟨reachable_sys_handed_off,
    lock_count_invariant cfg_debug 100 sys_handed_off reachable_sys_handed_off⟩

/-- C14 as stated fails: in a debug build `kmutex_destroy` on a mutex held by
task 1 with task 2 in the wait list trips no assertion; it returns and clears
the record. -/
theorem destroy_misuse_counterexample :
    sys_contended.k.m.owner_task ≠ 0 ∧ sys_contended.k.m.wait_list ≠ [] ∧
    (kmutex_destroy sys_contended.k).isAbort = false ∧
    (kmutex_destroy sys_contended.k).isRet = true ∧
    (kmutex_destroy sys_contended.k).kernel.m
      = { flags := 0, lock_count := 0, owner_task := 0, wait_list := [] } := by
  decide

/-- C14 (destroy), amended.  `kmutex_destroy` performs no check: in every mutex
state, idle or not, it completes, the record is cleared (all fields zero, wait
list empty) and nothing else changes. -/
theorem destroy_clears (k : Kernel) :
    kmutex_destroy k = .ret ()
      { k with m := { flags := 0, lock_count := 0, owner_task := 0, wait_list := [] } } ∧
    (kmutex_destroy k).isAbort = false ∧
    (kmutex_destroy k).kernel.m
      = { flags := 0, lock_count := 0, owner_task := 0, wait_list := [] } ∧
    (kmutex_destroy k).kernel.tasks = k.tasks :=
  ⟨rfl, rfl, rfl, rfl⟩

/-- In a debug build `kmutex_init` halts inside an interrupt handler, before it
touches the record. -/
theorem kmutex_init_irq (cfg : Build) (flags : Nat) (k : Kernel)
    (hd : cfg.debug = true) (hi : k.in_irq = true) :
    kmutex_init cfg flags k = .abort k := by
  simp [kmutex_init, in_irq_handler, hd, hi]

/-- C15 as stated fails: in a debug build, inside an interrupt handler,
`kmutex_is_curr_task_holding_lock` performs no check and returns its
comparison. -/
theorem irq_restriction_counterexample :
    cfg_debug.debug = true ∧ ({ sys_held.k with in_irq := true } : Kernel).in_irq = true ∧
    (kmutex_is_curr_task_holding_lock_call { sys_held.k with in_irq := true }).isAbort = false ∧
    (kmutex_is_curr_task_holding_lock_call { sys_held.k with in_irq := true }).value
      = some true := by
  decide

/-- C15 (interrupt restriction), amended.  In a debug build, called inside an
interrupt handler, `kmutex_init`, `kmutex_lock`, `kmutex_trylock` and
`kmutex_unlock` abort at their `check_not_in_irq_handler()`, with the mutex
record and the tasks untouched; `kmutex_is_curr_task_holding_lock` performs no
such check and returns the comparison `owner_task == current task`. -/
theorem irq_restriction (cfg : Build) (maddr flags : Nat) (k : Kernel)
    (hd : cfg.debug = true) (hi : k.in_irq = true) :
    kmutex_init cfg flags k = .abort k ∧
    kmutex_lock cfg maddr k = .abort (disable_preemption k) ∧
    kmutex_trylock cfg k = .abort (disable_preemption k) ∧
    kmutex_unlock cfg k = .abort (disable_preemption k) ∧
    (disable_preemption k).m = k.m ∧ (disable_preemption k).tasks = k.tasks ∧
    kmutex_is_curr_task_holding_lock_call k = .ret (k.m.owner_task == k.curr) k :=
  ⟨kmutex_init_irq cfg flags k hd hi, kmutex_lock_irq cfg maddr k hd hi,
    kmutex_trylock_irq cfg k hd hi, kmutex_unlock_irq cfg k hd hi, rfl, rfl, rfl⟩

/-- Witness of C15: the four checked operations called from an interrupt handler
on the mutex held by task 1. -/
theorem irq_restriction_witness :
    kmutex_init cfg_debug 0 { sys_held.k with in_irq := true }
      = .abort { sys_held.k with in_irq := true } ∧
    kmutex_lock cfg_debug 100 { sys_held.k with in_irq := true }
      = .abort (disable_preemption { sys_held.k with in_irq := true }) ∧
    kmutex_trylock cfg_debug { sys_held.k with in_irq := true }
      = .abort (disable_preemption { sys_held.k with in_irq := true }) ∧
    kmutex_unlock cfg_debug { sys_held.k with in_irq := true }
      = .abort (disable_preemption { sys_held.k with in_irq := true }) ∧
    (disable_preemption { sys_held.k with in_irq := true }).m = sys_held.k.m ∧
    (disable_preemption { sys_held.k with in_irq := true }).tasks = sys_held.k.tasks ∧
    kmutex_is_curr_task_holding_lock_call { sys_held.k with in_irq := true }
      = .ret (sys_held.k.m.owner_task == sys_held.k.curr)
          { sys_held.k with in_irq := true } :=
  irq_restriction cfg_debug 100 0 { sys_held.k with in_irq := true } rfl rfl

/-- C16 (owner misuse is detected before any mutation).  In a debug build:
`kmutex_unlock` aborts whenever the caller is not `owner_task` (also when
`owner_task` is `NULL`) and whenever the mutex is recursive with
`lock_count = 0`; `kmutex_lock` aborts whenever the mutex is non-recursive and
the (non-null) caller already is `owner_task`.  In each case the state at the
abort differs from the state before the call only in the gate counter: the
mutex record and the tasks are untouched. -/
theorem owner_misuse_detected (cfg : Build) (maddr : Nat) (k : Kernel)
    (hd : cfg.debug = true) :
    ((k.m.owner_task ≠ k.curr ∨
        (is_recursive cfg k.m.flags = true ∧ k.m.lock_count = 0)) →
      kmutex_unlock cfg k = .abort (disable_preemption k)) ∧
    (is_recursive cfg k.m.flags = false → k.m.owner_task = k.curr → k.m.owner_task ≠ 0 →
      kmutex_lock cfg maddr k = .abort (disable_preemption k)) ∧
    (disable_preemption k).m = k.m ∧ (disable_preemption k).tasks = k.tasks := by
  obtain ⟨⟨f, lc, o, wl⟩, tasks, curr, d, irq⟩ := k
  refine ⟨?_, ?_, rfl, rfl⟩
  · intro h
    rcases h with h | ⟨hr, hz⟩
    · cases irq <;>
        simp_all [kmutex_unlock, in_irq_handler, disable_preemption,
          kmutex_is_curr_task_holding_lock]
    · simp only at hr hz
      by_cases ho : o = curr <;> cases irq <;>
        simp_all [kmutex_unlock, in_irq_handler, disable_preemption,
          kmutex_is_curr_task_holding_lock]
  · intro hr hc ho
    simp only at hr hc ho
    cases irq <;>
      simp_all [kmutex_lock, in_irq_handler, disable_preemption,
        kmutex_is_curr_task_holding_lock]

/-- Witness of C16: task 2 unlocks the non-recursive mutex held by task 1, and
task 1 locks it a second time. -/
theorem owner_misuse_detected_witness :
    (kmutex_unlock cfg_debug { sys_held.k with curr := 2 }
        = .abort (disable_preemption { sys_held.k with curr := 2 })) ∧
    (kmutex_lock cfg_debug 100 sys_held.k = .abort (disable_preemption sys_held.k)) :=
  ⟨(owner_misuse_detected cfg_debug 100 { sys_held.k with curr := 2 } rfl).1
      (Or.inl (by decide)),
    (owner_misuse_detected cfg_debug 100 sys_held.k rfl).2.1 rfl rfl (by decide)⟩

/-- Outside an interrupt handler (or in a release build) `kmutex_init` returns
with the record reset and nothing else changed. -/
theorem kmutex_init_ok (cfg : Build) (flags : Nat) (k : Kernel)
    (hirq : cfg.debug = true → k.in_irq = false) :
    kmutex_init cfg flags k = .ret ()
      { k with m := { flags := flags, lock_count := 0, owner_task := 0, wait_list := [] } } := by
  by_cases hd : cfg.debug = true
  · simp [kmutex_init, in_irq_handler, hd, hirq hd]
  · simp [kmutex_init, in_irq_handler, hd]

/-- C18 (init postcondition).  For every prior content of the record and every
`flags`, `kmutex_init` (outside an interrupt handler) returns with
`owner_task = NULL`, `lock_count = 0`, `flags` stored, the wait list empty, and
the rest of the kernel state (tasks, gate depth, current task) unchanged.
Hence no non-null task holds the lock, the first `kmutex_trylock` by any task
returns `true`, and the state satisfies the invariant of the reachable states
(lock_count accounting and wait-list consistency included). -/
theorem init_postcondition (cfg : Build) (maddr flags : Nat) (k : Kernel)
    (hirq : cfg.debug = true → k.in_irq = false) :
    ∃ k', kmutex_init cfg flags k = .ret () k' ∧
      k'.m = { flags := flags, lock_count := 0, owner_task := 0, wait_list := [] } ∧
      k'.tasks = k.tasks ∧ k'.disable_preemption_count = k.disable_preemption_count ∧
      k'.curr = k.curr ∧ k'.in_irq = k.in_irq ∧
      (∀ c, c ≠ 0 → kmutex_is_curr_task_holding_lock { k' with curr := c } = false) ∧
      (∀ c, (kmutex_trylock cfg { k' with curr := c }).value = some true) ∧
      Inv cfg maddr { k := k', held := fun _ => 0, blocked := fun _ => false } := by
  refine ⟨_, kmutex_init_ok cfg flags k hirq, rfl, rfl, rfl, rfl, rfl, ?_, ?_, ?_⟩
  · intro c hc
    simp only [kmutex_is_curr_task_holding_lock]
    simpa using fun h : 0 = c => hc h.symm
  · intro c
    rw [kmutex_trylock_free]
    · rfl
    · exact hirq
    · rfl
  · refine init_inv (?_ : sys_init cfg flags k = some _)
    simp only [sys_init, kmutex_init_ok cfg flags k hirq]

/-- Witness of C18: `kmutex_init` with the recursive flag on a record holding
leftovers of an earlier use. -/
theorem init_postcondition_witness :
    ∃ k', kmutex_init cfg_debug 1 kernel_boot = .ret () k' ∧
      k'.m = { flags := 1, lock_count := 0, owner_task := 0, wait_list := [] } ∧
      k'.tasks = kernel_boot.tasks ∧
      k'.disable_preemption_count = kernel_boot.disable_preemption_count ∧
      k'.curr = kernel_boot.curr ∧ k'.in_irq = kernel_boot.in_irq ∧
      (∀ c, c ≠ 0 → kmutex_is_curr_task_holding_lock { k' with curr := c } = false) ∧
      (∀ c, (kmutex_trylock cfg_debug { k' with curr := c }).value = some true) ∧
      Inv cfg_debug 100 { k := k', held := fun _ => 0, blocked := fun _ => false } :=
  init_postcondition cfg_debug 100 1 kernel_boot (fun _ => rfl)

/-- C20 (`kmutex_lock` and `kmutex_trylock` agree on the non-blocking cases).
In a state satisfying the lock_count accounting invariant (only its recursive
half is needed: `lock_count = 0` iff `owner_task` is `NULL`), outside an
interrupt handler: `kmutex_trylock` returns; if it returns `true`, `kmutex_lock` from the
same state returns without yielding with exactly the same mutex record; if it
returns `false` and the caller is not a non-recursive self-locker,
`kmutex_lock` takes the contention path and appends the caller to the wait
list.  Outside the invariant the agreement can fail: on a recursive mutex with
no owner and `lock_count = 5`, in a debug build, `kmutex_trylock` returns
`true` while `kmutex_lock` aborts. -/
theorem lock_trylock_agree (cfg : Build) (maddr : Nat) (k : Kernel)
    (hirq : cfg.debug = true → k.in_irq = false)
    (hrc : is_recursive cfg k.m.flags = true → (k.m.lock_count = 0 ↔ k.m.owner_task = 0)) :
    (∃ b k', kmutex_trylock cfg k = .ret b k') ∧
    (∀ k', kmutex_trylock cfg k = .ret true k' →
      ∃ k'', kmutex_lock cfg maddr k = .ret () k'' ∧ k''.m = k'.m) ∧
    (∀ k', kmutex_trylock cfg k = .ret false k' →
      ¬ (is_recursive cfg k.m.flags = false ∧ k.m.owner_task = k.curr) →
      ∃ k'', kmutex_lock cfg maddr k = .yielded k'' ∧
        k''.m.wait_list = k.m.wait_list ++ [k.curr] ∧
        (k''.tasks k.curr).state = task_state.TASK_STATE_SLEEPING ∧
        k''.m.owner_task = k.m.owner_task ∧ k''.m.lock_count = k.m.lock_count ∧
        k''.m.flags = k.m.flags) ∧
    (∃ k0 k1, (is_recursive cfg_debug k0.m.flags = true ∧ k0.m.owner_task = 0 ∧
        k0.m.lock_count ≠ 0) ∧
      kmutex_trylock cfg_debug k0 = .ret true k1 ∧
      (kmutex_lock cfg_debug maddr k0).isAbort = true) := by
  have hpos : is_recursive cfg k.m.flags = true → k.m.owner_task ≠ 0 → 0 < k.m.lock_count :=
    fun hr ho => Nat.pos_of_ne_zero (fun hz => ho ((hrc hr).1 hz))
  refine ⟨?_, ?_, ?_, ?_⟩
  · by_cases ho : k.m.owner_task = 0
    · exact ⟨true, _, kmutex_trylock_free cfg k hirq ho⟩
    by_cases hre : is_recursive cfg k.m.flags = true ∧ k.m.owner_task = k.curr
    · exact ⟨true, _, kmutex_trylock_reenter cfg k hirq ho hre.1 hre.2⟩
    · exact ⟨false, _, kmutex_trylock_fail cfg k hirq ho (fun hr hc => hre ⟨hr, hc⟩)⟩
  · intro k' ht
    by_cases ho : k.m.owner_task = 0
    · rw [kmutex_trylock_free cfg k hirq ho] at ht
      simp only [Outcome.ret.injEq, true_and] at ht
      subst ht
      exact ⟨_, kmutex_lock_free cfg maddr k hirq ho (fun _ hr => (hrc hr).2 ho), rfl⟩
    by_cases hre : is_recursive cfg k.m.flags = true ∧ k.m.owner_task = k.curr
    · rw [kmutex_trylock_reenter cfg k hirq ho hre.1 hre.2] at ht
      simp only [Outcome.ret.injEq, true_and] at ht
      subst ht
      exact ⟨_, kmutex_lock_reenter cfg maddr k hirq ho hre.1 hre.2
        (fun _ => hpos hre.1 ho), rfl⟩
    · rw [kmutex_trylock_fail cfg k hirq ho (fun hr hc => hre ⟨hr, hc⟩)] at ht
      simp at ht
  · intro k' ht hself
    have ho : k.m.owner_task ≠ 0 := by
      intro ho
      rw [kmutex_trylock_free cfg k hirq ho] at ht
      simp at ht
    have hoc : k.m.owner_task ≠ k.curr := by
      intro hoc
      by_cases hr : is_recursive cfg k.m.flags = true
      · rw [kmutex_trylock_reenter cfg k hirq ho hr hoc] at ht
        simp at ht
      · exact hself ⟨by simpa using hr, hoc⟩
    exact ⟨_, kmutex_lock_contend cfg maddr k hirq ho hoc (fun _ hr => hpos hr ho),
      rfl, by simp, rfl, rfl, rfl⟩
  · refine ⟨kernel_with { flags := 1, lock_count := 5, owner_task := 0, wait_list := [] } 1,
      _, by decide, kmutex_trylock_free cfg_debug _ (fun _ => rfl) rfl, ?_⟩
    simp [kmutex_lock, kernel_with, cfg_debug, in_irq_handler, disable_preemption,
      is_recursive, Outcome.isAbort]

/-- Witness of C20: task 1 re-enters the recursive mutex it holds once;
`kmutex_trylock` returns `true` with `lock_count = 2`, and `kmutex_lock` returns
with the same record. -/
theorem lock_trylock_agree_witness :
    ∃ k'', kmutex_lock cfg_debug 100 kernel_held_recursive = .ret () k'' ∧
      k''.m = { flags := 1, lock_count := 2, owner_task := 1, wait_list := [] } :=
  (lock_trylock_agree cfg_debug 100 kernel_held_recursive
    (fun _ => rfl) (fun _ => by simp [kernel_held_recursive, kernel_with])).2.1
    { kernel_held_recursive with
      m := { flags := 1, lock_count := 2, owner_task := 1, wait_list := [] } }
    (kmutex_trylock_reenter cfg_debug kernel_held_recursive (fun _ => rfl) (by decide) rfl rfl)

/-- How one step changes the wait list: not at all, by appending the caller at the
tail (contention in `kmutex_lock`), or by removing the head, which becomes
`owner_task` (handoff in `kmutex_unlock`). -/
theorem step_wait_list {cfg : Build} {maddr : Nat} {s s' : Sys} (a : Action)
    (h : Inv cfg maddr s) (hs : sys_step cfg maddr s a = some s') :
    s'.k.m.wait_list = s.k.m.wait_list ∨
    (∃ c, s'.k.m.wait_list = s.k.m.wait_list ++ [c]) ∨
    (∃ t r, s.k.m.wait_list = t :: r ∧ s'.k.m.wait_list = r ∧ s'.k.m.owner_task = t) := by
  cases a with
  | lock c =>
    simp only [sys_step] at hs
    split at hs
    case isFalse => simp at hs
    case isTrue hg =>
      simp only [can_call, Bool.and_eq_true, Bool.or_eq_true, decide_eq_true_eq,
        Bool.not_eq_true', beq_eq_false_iff_ne, beq_iff_eq] at hg
      obtain ⟨⟨⟨hc0, hb⟩, hns⟩, hcontract⟩ := hg
      by_cases hirq : cfg.debug = true ∧ s.k.in_irq = true
      · rw [kmutex_lock_irq cfg maddr { s.k with curr := c } hirq.1 hirq.2] at hs
        simp at hs
      have hirq' : cfg.debug = true → s.k.in_irq = false := by
        intro hd
        simpa [hd] using hirq
      by_cases ho : s.k.m.owner_task = 0
      · rw [kmutex_lock_free cfg maddr { s.k with curr := c } hirq' ho
          (fun _ _ => (h.free ho).2)] at hs
        simp only [Option.some.injEq] at hs
        subst hs
        exact Or.inl rfl
      by_cases hre : is_recursive cfg s.k.m.flags = true ∧ s.k.m.owner_task = c
      · rw [kmutex_lock_reenter cfg maddr { s.k with curr := c } hirq' ho hre.1 hre.2
          (fun _ => inv_owner_count h ho hre.1)] at hs
        simp only [Option.some.injEq] at hs
        subst hs
        exact Or.inl rfl
      · have hoc : s.k.m.owner_task ≠ c := by
          intro hoc
          rcases hcontract with hr | hz
          · exact hre ⟨hr, hoc⟩
          · have := (h.owner_running ho (by rw [hoc]; exact hb)).1
            rw [hoc] at this
            omega
        rw [kmutex_lock_contend cfg maddr { s.k with curr := c } hirq' ho hoc
          (fun _ hr => inv_owner_count h ho hr)] at hs
        simp only [Option.some.injEq] at hs
        subst hs
        exact Or.inr (Or.inl ⟨c, rfl⟩)
  | trylock c =>
    simp only [sys_step] at hs
    split at hs
    case isFalse => simp at hs
    case isTrue hg =>
      by_cases hirq : cfg.debug = true ∧ s.k.in_irq = true
      · rw [kmutex_trylock_irq cfg { s.k with curr := c } hirq.1 hirq.2] at hs
        simp at hs
      have hirq' : cfg.debug = true → s.k.in_irq = false := by
        intro hd
        simpa [hd] using hirq
      by_cases ho : s.k.m.owner_task = 0
      · rw [kmutex_trylock_free cfg { s.k with curr := c } hirq' ho] at hs
        simp only [Option.some.injEq] at hs
        subst hs
        exact Or.inl rfl
      by_cases hre : is_recursive cfg s.k.m.flags = true ∧ s.k.m.owner_task = c
      · rw [kmutex_trylock_reenter cfg { s.k with curr := c } hirq' ho hre.1 hre.2] at hs
        simp only [Option.some.injEq] at hs
        subst hs
        exact Or.inl rfl
      · rw [kmutex_trylock_fail cfg { s.k with curr := c } hirq' ho
          (fun hr hoc => hre ⟨hr, hoc⟩)] at hs
        simp only [Option.some.injEq] at hs
        subst hs
        exact Or.inl rfl
  | unlock c =>
    simp only [sys_step] at hs
    split at hs
    case isFalse => simp at hs
    case isTrue hg =>
      simp only [can_call, Bool.and_eq_true, decide_eq_true_eq,
        Bool.not_eq_true', beq_eq_false_iff_ne] at hg
      obtain ⟨⟨⟨hc0, hb⟩, hns⟩, hh⟩ := hg
      obtain ⟨ho, _⟩ := h.held_owner c hh
      have ho0 : s.k.m.owner_task ≠ 0 := by rw [ho]; exact hc0
      by_cases hirq : cfg.debug = true ∧ s.k.in_irq = true
      · rw [kmutex_unlock_irq cfg { s.k with curr := c } hirq.1 hirq.2] at hs
        simp at hs
      have hirq' : cfg.debug = true → s.k.in_irq = false := by
        intro hd
        simpa [hd] using hirq
      by_cases hn : is_recursive cfg s.k.m.flags = true ∧ 2 ≤ s.k.m.lock_count
      · rw [kmutex_unlock_nested cfg { s.k with curr := c } hirq' ho hn.1 hn.2] at hs
        simp only [Option.some.injEq] at hs
        subst hs
        exact Or.inl rfl
      have hlc : is_recursive cfg s.k.m.flags = true → s.k.m.lock_count = 1 := by
        intro hr
        have := inv_owner_count h ho0 hr
        have : ¬ 2 ≤ s.k.m.lock_count := fun h2 => hn ⟨hr, h2⟩
        omega
      rw [kmutex_unlock_final cfg { s.k with curr := c } hirq' ho hlc] at hs
      cases hwl : s.k.m.wait_list with
      | nil =>
        rw [kmutex_unlock_release_empty] at hs
        · simp only [Option.some.injEq] at hs
          subst hs
          exact Or.inl hwl
        · exact hwl
      | cons t r =>
        have htw := (h.wl_iff t).1 (by rw [hwl]; exact List.mem_cons_self t r)
        rw [kmutex_unlock_release_handoff cfg _ t r] at hs
        · simp only [Option.some.injEq] at hs
          subst hs
          exact Or.inr (Or.inr ⟨t, r, rfl, rfl, rfl⟩)
        · exact hwl
        · exact fun _ => htw.2
  | resume c =>
    simp only [sys_step] at hs
    split at hs
    case isFalse => simp at hs
    case isTrue hg =>
      simp only [Bool.and_eq_true, decide_eq_true_eq, Bool.not_eq_true',
        beq_eq_false_iff_ne] at hg
      obtain ⟨⟨hc0, hb⟩, hns⟩ := hg
      obtain ⟨hown, hcnt⟩ := h.woken c hb hns
      have hw : kmutex_lock_woken cfg { s.k with curr := c }
          = .ret () { s.k with curr := c } := by
        by_cases hr : is_recursive cfg s.k.m.flags = true
        · simp [kmutex_lock_woken, kmutex_is_curr_task_holding_lock, hown, hr, hcnt hr]
        · simp [kmutex_lock_woken, kmutex_is_curr_task_holding_lock, hown, hr]
      rw [hw] at hs
      simp only [Option.some.injEq] at hs
      subst hs
      exact Or.inl rfl

/-- C19 (wait-list consistency).  In every reachable state the wait list holds
no task twice and never `owner_task`; every task in it is SLEEPING with wait
reason `WOBJ_KMUTEX` and awaited object `m`; a task is suspended in
`kmutex_lock` without having been handed ownership exactly when it is in the
wait list; the wait list is non-empty only while `owner_task` is not `NULL`;
and in every step from such a state a task leaves the wait list only by
becoming `owner_task`. -/
theorem wait_list_consistency (cfg : Build) (maddr : Nat) (s : Sys)
    (h : Reachable cfg maddr s) :
    s.k.m.wait_list.Nodup ∧
    s.k.m.owner_task ∉ s.k.m.wait_list ∧
    (∀ c, c ∈ s.k.m.wait_list →
      (s.k.tasks c).state = task_state.TASK_STATE_SLEEPING ∧
      (s.k.tasks c).wobj = { type := wo_type.WOBJ_KMUTEX, ptr := maddr }) ∧
    (∀ c, (s.blocked c = true ∧ s.k.m.owner_task ≠ c) ↔ c ∈ s.k.m.wait_list) ∧
    (s.k.m.wait_list ≠ [] → s.k.m.owner_task ≠ 0) ∧
    (∀ a s', sys_step cfg maddr s a = some s' →
      ∀ c, c ∈ s.k.m.wait_list → c ∉ s'.k.m.wait_list → s'.k.m.owner_task = c) := by
  have hinv := reachable_inv h
  refine ⟨hinv.wl_nodup, hinv.owner_not_waiting,
    fun c hc => ⟨((hinv.wl_iff c).1 hc).2, hinv.wl_wobj c hc⟩, fun c => ⟨?_, ?_⟩,
    fun hne ho => hne (hinv.free ho).1, ?_⟩
  · rintro ⟨hb, hoc⟩
    refine (hinv.wl_iff c).2 ⟨hb, ?_⟩
    by_contra hns
    exact hoc (hinv.woken c hb hns).1
  · intro hc
    exact ⟨((hinv.wl_iff c).1 hc).1, fun e => hinv.owner_not_waiting (e ▸ hc)⟩
  · intro a s' hs c hc hc'
    rcases step_wait_list a hinv hs with e | ⟨x, e⟩ | ⟨t, r, e1, e2, e3⟩
    · exact absurd (e ▸ hc) hc'
    · exact absurd (by rw [e]; exact List.mem_append_left _ hc) hc'
    · rw [e1] at hc
      rw [e2] at hc'
      rcases List.mem_cons.1 hc with e | e
      · rw [e3, e]
      · exact absurd e hc'

/-- Witness of C19: task 1 holds the mutex, task 2 sleeps in the wait list. -/
theorem wait_list_consistency_witness :
    Reachable cfg_debug 100 sys_contended ∧ 2 ∈ sys_contended.k.m.wait_list ∧
    (sys_contended.k.m.wait_list.Nodup ∧
      sys_contended.k.m.owner_task ∉ sys_contended.k.m.wait_list ∧
      (∀ c, c ∈ sys_contended.k.m.wait_list →
        (sys_contended.k.tasks c).state = task_state.TASK_STATE_SLEEPING ∧
        (sys_contended.k.tasks c).wobj = { type := wo_type.WOBJ_KMUTEX, ptr := 100 }) ∧
      (∀ c, (sys_contended.blocked c = true ∧ sys_contended.k.m.owner_task ≠ c) ↔
        c ∈ sys_contended.k.m.wait_list) ∧
      (sys_contended.k.m.wait_list ≠ [] → sys_contended.k.m.owner_task ≠ 0) ∧
      (∀ a s', sys_step cfg_debug 100 sys_contended a = some s' →
        ∀ c, c ∈ sys_contended.k.m.wait_list → c ∉ s'.k.m.wait_list →
          s'.k.m.owner_task = c)) :=
  ⟨reachable_sys_contended, by decide,
    wait_list_consistency cfg_debug 100 sys_contended reachable_sys_contended⟩

/-! ## The traced operations compute the operations -/

theorem kmutex_init_ev_fst (cfg : Build) (flags : Nat) (k : Kernel) :
    (kmutex_init_ev cfg flags k).1 = kmutex_init cfg flags k := by
  simp only [kmutex_init_ev, kmutex_init]
  split <;> rfl

theorem kmutex_destroy_ev_fst (k : Kernel) :
    (kmutex_destroy_ev k).1 = kmutex_destroy k := rfl

theorem kmutex_is_curr_task_holding_lock_ev_fst (k : Kernel) :
    (kmutex_is_curr_task_holding_lock_ev k).1 = kmutex_is_curr_task_holding_lock_call k := rfl

theorem kmutex_lock_ev_fst (cfg : Build) (maddr : Nat) (k : Kernel) :
    (kmutex_lock_ev cfg maddr k).1 = kmutex_lock cfg maddr k := by
  simp only [kmutex_lock_ev, kmutex_lock]
  repeat' split
  all_goals rfl

theorem kmutex_lock_woken_ev_fst (cfg : Build) (k : Kernel) :
    (kmutex_lock_woken_ev cfg k).1 = kmutex_lock_woken cfg k := by
  simp only [kmutex_lock_woken_ev, kmutex_lock_woken]
  repeat' split
  all_goals rfl

theorem kmutex_trylock_ev_fst (cfg : Build) (k : Kernel) :
    (kmutex_trylock_ev cfg k).1 = kmutex_trylock cfg k := by
  simp only [kmutex_trylock_ev, kmutex_trylock]
  repeat' split
  all_goals rfl

theorem kmutex_unlock_release_ev_fst (cfg : Build) (k : Kernel) (tr : List Ev) :
    (kmutex_unlock_release_ev cfg k tr).1 = kmutex_unlock_release cfg k := by
  simp only [kmutex_unlock_release_ev, kmutex_unlock_release]
  repeat' split
  all_goals rfl

theorem kmutex_unlock_ev_fst (cfg : Build) (k : Kernel) :
    (kmutex_unlock_ev cfg k).1 = kmutex_unlock cfg k := by
  simp only [kmutex_unlock_ev, kmutex_unlock]
  repeat' split
  all_goals first
    | rfl
    | exact kmutex_unlock_release_ev_fst cfg _ _

/-! ## Field accesses and the gate -/

theorem gated_append (a b : List Ev) :
    ∀ d, gated d (a ++ b) = (gated d a && gated (depth_after d a) b) := by
  induction a with
  | nil => intro d; simp [gated, depth_after]
  | cons e es ih =>
    intro d
    cases e <;> simp [gated, depth_after, ih, Bool.and_assoc]

theorem kmutex_unlock_release_ev_trace (cfg : Build) (k : Kernel) (tr : List Ev) :
    (kmutex_unlock_release_ev cfg k tr).2 = tr ++ (kmutex_unlock_release_ev cfg k []).2 := by
  simp only [kmutex_unlock_release_ev]
  repeat' split
  all_goals simp

theorem kmutex_unlock_release_ev_gated (cfg : Build) (k : Kernel) :
    gated 1 (kmutex_unlock_release_ev cfg k []).2 = true := by
  simp only [kmutex_unlock_release_ev]
  repeat' split
  all_goals simp [gated]

/-- Every access of `kmutex_trylock` is inside the gate. -/
theorem kmutex_trylock_ev_gated (cfg : Build) (k : Kernel) :
    gated 0 (kmutex_trylock_ev cfg k).2 = true := by
  simp only [kmutex_trylock_ev]
  repeat' split
  all_goals simp [gated]

/-- Every access of `kmutex_unlock` is inside the gate. -/
theorem kmutex_unlock_ev_gated (cfg : Build) (k : Kernel) :
    gated 0 (kmutex_unlock_ev cfg k).2 = true := by
  simp only [kmutex_unlock_ev, dbg]
  cases cfg.debug <;> (repeat' split)
  all_goals try rw [kmutex_unlock_release_ev_trace, gated_append]
  all_goals simp_all [gated, depth_after, kmutex_unlock_release_ev_gated]

/-- Every access of `kmutex_lock` before `kernel_yield()` is inside the gate. -/
theorem kmutex_lock_ev_gated (cfg : Build) (maddr : Nat) (k : Kernel) :
    gated 0 (kmutex_lock_ev cfg maddr k).2 = true := by
  simp only [kmutex_lock_ev, dbg]
  cases cfg.debug <;> (repeat' split) <;> simp [gated]

/-- The code of `kmutex_lock` after the yield never enters the gate and reads
the record. -/
theorem kmutex_lock_woken_ev_ungated (cfg : Build) (k : Kernel) :
    enters_gate (kmutex_lock_woken_ev cfg k).2 = false ∧
      gated 0 (kmutex_lock_woken_ev cfg k).2 = false := by
  simp only [kmutex_lock_woken_ev, dbg]
  cases cfg.debug <;> constructor <;> (repeat' split) <;> simp_all [enters_gate, gated]

/-- On the contention path the gate is back at depth 0 when the caller is
suspended. -/
theorem kmutex_lock_ev_depth (cfg : Build) (maddr : Nat) (k : Kernel)
    (h : (kmutex_lock_ev cfg maddr k).1.isYielded = true) :
    depth_after 0 (kmutex_lock_ev cfg maddr k).2 = 0 := by
  revert h
  simp only [kmutex_lock_ev, dbg]
  cases cfg.debug <;> (repeat' split) <;> simp [depth_after, Outcome.isYielded]

theorem kmutex_init_ev_ungated (cfg : Build) (flags : Nat) (k : Kernel) :
    enters_gate (kmutex_init_ev cfg flags k).2 = false ∧
      ((kmutex_init_ev cfg flags k).1.isAbort = false →
        gated 0 (kmutex_init_ev cfg flags k).2 = false) := by
  simp only [kmutex_init_ev]
  split <;> simp [enters_gate, gated, Outcome.isAbort]

/-- C17 as stated fails: called at gate depth 0, `kmutex_init`,
`kmutex_destroy` and `kmutex_is_curr_task_holding_lock` never call
`disable_preemption()` and access the fields of the record at depth 0. -/
theorem field_access_gating_counterexample :
    kernel_boot.disable_preemption_count = 0 ∧
    (kmutex_init_ev cfg_debug 0 kernel_boot).1.isRet = true ∧
    enters_gate (kmutex_init_ev cfg_debug 0 kernel_boot).2 = false ∧
    gated 0 (kmutex_init_ev cfg_debug 0 kernel_boot).2 = false ∧
    gated 0 (kmutex_destroy_ev kernel_boot).2 = false ∧
    gated 0 (kmutex_is_curr_task_holding_lock_ev kernel_boot).2 = false := by
  decide

/-- C17 (field accesses and the gate), amended.  Called at gate depth 0:
`kmutex_trylock` and `kmutex_unlock` perform every read and write of
`owner_task`, `flags`, `lock_count` and `wait_list` inside the gate, on every
path; so does `kmutex_lock` up to its `kernel_yield()`.  The code of
`kmutex_lock` after the yield reads fields outside the gate, so the whole
contended call is not gated.  `kmutex_init`, `kmutex_destroy` and
`kmutex_is_curr_task_holding_lock` never enter the gate: whenever they touch
the record they do so at the depth of their caller. -/
theorem field_access_gating (cfg : Build) (maddr flags : Nat) (k k' : Kernel) :
    gated 0 (kmutex_trylock_ev cfg k).2 = true ∧
    gated 0 (kmutex_unlock_ev cfg k).2 = true ∧
    gated 0 (kmutex_lock_ev cfg maddr k).2 = true ∧
    (enters_gate (kmutex_lock_woken_ev cfg k').2 = false ∧
      gated 0 (kmutex_lock_woken_ev cfg k').2 = false ∧
      ((kmutex_lock_ev cfg maddr k).1.isYielded = true →
        gated 0 ((kmutex_lock_ev cfg maddr k).2 ++ (kmutex_lock_woken_ev cfg k').2)
          = false)) ∧
    (enters_gate (kmutex_init_ev cfg flags k).2 = false ∧
      ((kmutex_init_ev cfg flags k).1.isAbort = false →
        gated 0 (kmutex_init_ev cfg flags k).2 = false)) ∧
    (enters_gate (kmutex_destroy_ev k).2 = false ∧
      gated 0 (kmutex_destroy_ev k).2 = false) ∧
    (enters_gate (kmutex_is_curr_task_holding_lock_ev k).2 = false ∧
      gated 0 (kmutex_is_curr_task_holding_lock_ev k).2 = false) := by
  refine ⟨kmutex_trylock_ev_gated cfg k, kmutex_unlock_ev_gated cfg k,
    kmutex_lock_ev_gated cfg maddr k,
    ⟨(kmutex_lock_woken_ev_ungated cfg k').1, (kmutex_lock_woken_ev_ungated cfg k').2, ?_⟩,
    kmutex_init_ev_ungated cfg flags k, ?_, ?_⟩
  · intro h
    rw [gated_append, kmutex_lock_ev_depth cfg maddr k h,
      (kmutex_lock_woken_ev_ungated cfg k').2]
    simp
  · simp [kmutex_destroy_ev, enters_gate, gated]
  · simp [kmutex_is_curr_task_holding_lock_ev, enters_gate, gated]

/-- Witness of C17: task 2 blocks in `kmutex_lock` on the mutex held by task 1
and later resumes in the handed-off state; `kmutex_init` on the boot record. -/
theorem field_access_gating_witness :
    gated 0 ((kmutex_lock_ev cfg_debug 100 { sys_held.k with curr := 2 }).2 ++
      (kmutex_lock_woken_ev cfg_debug { sys_handed_off.k with curr := 2 }).2) = false ∧
    gated 0 (kmutex_init_ev cfg_debug 0 kernel_boot).2 = false :=
  ⟨(field_access_gating cfg_debug 100 0 { sys_held.k with curr := 2 }
      { sys_handed_off.k with curr := 2 }).2.2.2.1.2.2 rfl,
    (field_access_gating cfg_debug 100 0 kernel_boot kernel_boot).2.2.2.2.1.2 rfl⟩

end Tilck
